import Mathlib

/-!
# A verification development for the `raytracer` sources

The C++ sources compute with `double`.  The embedding below reads every `double`
as an element of a linearly ordered field `K` with exact arithmetic; the library
function `sqrt` of `<cmath>` is a parameter `sqrt : K → K`, and each theorem names
the property of `sqrt` that it relies on.  All definitions are computable and can
be evaluated at `K := ℚ`.

The function `unit_vector` of `vec3.hpp` is a parameter of the integrators and of
`ONB::build_from_w`: on the zero vector the source divides `0` by `0`, and no value
of `K` stands for the outcome.  `Vec3.Normalizes` says that the parameter agrees with
`v / |v|` on every non-zero vector and leaves its value on the zero vector free.

Where a statement depends on rounding, the code is embedded a second time with the
arithmetic as a parameter (`Arith`, section "The arithmetic of `double`"): `Sphere.hit_fl`
and `ONB.build_from_w` run with exact operations or with the operations of IEEE 754
binary64 on the rationals (`binary64`), and `Sphere.hit_fl` with exact operations is
`Sphere.hit`.

A dereference of an empty `shared_ptr` is undefined behaviour; functions that can
reach one return an `Option`, with `none` standing for that event.
-/

namespace Raytracer

/-! ## Vectors, rays and hit records (`vec3.hpp`, `ray.hpp`, `hittable.h`) -/

/-- Modelled from the spec: `vec3.hpp` is not among the sources; a vector has the three
`double` components `x()`, `y()`, `z()`.  `Point3` and `Color` are aliases of it. -/
structure Vec3 (K : Type) where
  x : K
  y : K
  z : K
deriving DecidableEq

/-- Modelled from the spec: alias of `Vec3` used for positions. -/
abbrev Point3 (K : Type) := Vec3 K

/-- Modelled from the spec: alias of `Vec3` used for RGB radiance. -/
abbrev Color (K : Type) := Vec3 K

namespace Vec3

variable {K : Type} [LinearOrderedField K]

/-- Modelled from the spec: componentwise `operator+` of `vec3.hpp`. -/
def add (a b : Vec3 K) : Vec3 K := ⟨a.x + b.x, a.y + b.y, a.z + b.z⟩

/-- Modelled from the spec: componentwise `operator-` of `vec3.hpp`. -/
def sub (a b : Vec3 K) : Vec3 K := ⟨a.x - b.x, a.y - b.y, a.z - b.z⟩

/-- Modelled from the spec: componentwise product `operator*(Vec3, Vec3)` of `vec3.hpp`. -/
def mul (a b : Vec3 K) : Vec3 K := ⟨a.x * b.x, a.y * b.y, a.z * b.z⟩

/-- Modelled from the spec: scaling `operator*(double, Vec3)` of `vec3.hpp`. -/
def smul (k : K) (a : Vec3 K) : Vec3 K := ⟨k * a.x, k * a.y, k * a.z⟩

/-- Modelled from the spec: `operator/(Vec3, double)` of `vec3.hpp`. -/
def sdiv (a : Vec3 K) (k : K) : Vec3 K := ⟨a.x / k, a.y / k, a.z / k⟩

/-- Modelled from the spec: `dot(u, v)` of `vec3.hpp`. -/
def dot (a b : Vec3 K) : K := a.x * b.x + a.y * b.y + a.z * b.z

/-- Modelled from the spec: `Vec3::length_sqr()` of `vec3.hpp`. -/
def length_sqr (a : Vec3 K) : K := a.x * a.x + a.y * a.y + a.z * a.z

/-- Modelled from the spec: `Vec3::length()` of `vec3.hpp`, the square root of `length_sqr`. -/
def length (sqrt : K → K) (a : Vec3 K) : K := sqrt a.length_sqr

/-- Modelled from the spec: `unit_vector(v)` of `vec3.hpp`, `v / v.length()`. -/
def unit_vector (sqrt : K → K) (a : Vec3 K) : Vec3 K := a.sdiv (a.length sqrt)

/-- The zero vector, `Vec3(0, 0, 0)`. -/
def zero : Vec3 K := ⟨0, 0, 0⟩

/-- A function is a version of `unit_vector`: on every non-zero vector it returns the vector
divided by its length.  Nothing is said about the zero vector, where the source computes
`0 / 0`. -/
def Normalizes (sqrt : K → K) (unit_vector : Vec3 K → Vec3 K) : Prop :=
  ∀ v : Vec3 K, v ≠ zero → unit_vector v = v.sdiv (v.length sqrt)

end Vec3

/-- Modelled from the spec: the ray of `ray.hpp`: origin, direction and a time scalar. -/
structure Ray (K : Type) where
  origin : Point3 K
  direction : Vec3 K
  time : K
deriving DecidableEq

/-- Modelled from the spec: `Ray::at(t)`, the point `origin + t * direction`. -/
def Ray.at_ {K : Type} [LinearOrderedField K] (r : Ray K) (t : K) : Point3 K :=
  r.origin.add (Vec3.smul t r.direction)

/-- Modelled from the spec: the `hit_record` of `hittable.h`: hit point, normal, distance `t`,
surface coordinates and the material pointer (`none` is the empty `shared_ptr`).  `M` is the
type of material objects. -/
structure hit_record (K M : Type) where
  p : Point3 K
  norm : Vec3 K
  t : K
  u : K
  v : K
  mat_ptr : Option M
deriving DecidableEq

/-! ## `sphere.hpp` -/

/-- The class `Sphere` of `sphere.hpp`: a center and a radius. -/
structure Sphere (K : Type) where
  center : Point3 K
  radius : K
deriving DecidableEq

section SphereHit

variable {K M : Type} [LinearOrderedField K]

/-- The body of the two accepting branches of `Sphere::hit`: store `temp` in `rec.t`, then the
point `r.at(rec.t)`, then the normal `(rec.p - center) / radius`. -/
def Sphere.record (s : Sphere K) (r : Ray K) (temp : K) (rec : hit_record K M) :
    hit_record K M :=
  let rec1 := { rec with t := temp }
  let rec2 := { rec1 with p := r.at_ rec1.t }
  { rec2 with norm := (rec2.p.sub s.center).sdiv s.radius }

/-- The member `Sphere::hit(r, tmin, tmax, rec)`: the returned flag and the record after the
call. -/
def Sphere.hit (sqrt : K → K) (s : Sphere K) (r : Ray K) (tmin tmax : K)
    (rec : hit_record K M) : Bool × hit_record K M :=
  let oc := r.origin.sub s.center
  let a := r.direction.length_sqr
  let half_b := Vec3.dot oc r.direction
  let c := oc.length_sqr - s.radius * s.radius
  let discriminant := half_b * half_b - a * c
  if discriminant > 0 then
    let root := sqrt discriminant
    let temp := (-half_b - root) / a
    if temp < tmax ∧ temp > tmin then
      (true, s.record r temp rec)
    else
      let temp := (-half_b + root) / a
      if temp < tmax ∧ temp > tmin then
        (true, s.record r temp rec)
      else
        (false, rec)
  else
    (false, rec)

/-- The value of the local `discriminant` of `Sphere::hit`. -/
def Sphere.discriminant (s : Sphere K) (r : Ray K) : K :=
  let oc := r.origin.sub s.center
  let a := r.direction.length_sqr
  let half_b := Vec3.dot oc r.direction
  let c := oc.length_sqr - s.radius * s.radius
  half_b * half_b - a * c

/-- The first value of the local `temp` of `Sphere::hit`, `(-half_b - root) / a`. -/
def Sphere.root_neg (sqrt : K → K) (s : Sphere K) (r : Ray K) : K :=
  (-(Vec3.dot (r.origin.sub s.center) r.direction) - sqrt (s.discriminant r)) /
    r.direction.length_sqr

/-- The second value of the local `temp` of `Sphere::hit`, `(-half_b + root) / a`. -/
def Sphere.root_pos (sqrt : K → K) (s : Sphere K) (r : Ray K) : K :=
  (-(Vec3.dot (r.origin.sub s.center) r.direction) + sqrt (s.discriminant r)) /
    r.direction.length_sqr

end SphereHit

/-! ## Boxes and the `Hittable` interface (`aabb.hpp`, `hittable.h`) -/

/-- Modelled from the spec: the bounding box of `aabb.hpp`, "two corner points (min, max) per
axis". -/
structure AABB (K : Type) where
  min : Point3 K
  max : Point3 K
deriving DecidableEq

section Boxes

variable {K M : Type} [LinearOrderedField K]

/-- Modelled from the spec: `surrounding_box(a, b)` of `aabb.hpp`, "componentwise min of mins,
max of maxes". -/
def surrounding_box (box0 box1 : AABB K) : AABB K :=
  { min := ⟨Min.min box0.min.x box1.min.x, Min.min box0.min.y box1.min.y,
            Min.min box0.min.z box1.min.z⟩
    max := ⟨Max.max box0.max.x box1.max.x, Max.max box0.max.y box1.max.y,
            Max.max box0.max.z box1.max.z⟩ }

/-- Modelled from the spec: one axis of `AABB::hit`: the entry and exit distances of the slab
`[lo, hi]`, swapped when the direction component is negative, intersected with the interval
accumulated so far; `none` when the interval becomes empty.  A zero direction component
rejects when the origin is outside the slab and accepts the axis unchanged otherwise. -/
def AABB.hit_axis (lo hi origin direction tmin tmax : K) : Option (K × K) :=
  if direction = 0 then
    if origin < lo ∨ hi < origin then none else some (tmin, tmax)
  else
    let t0 := (lo - origin) / direction
    let t1 := (hi - origin) / direction
    let t_in := if direction < 0 then t1 else t0
    let t_out := if direction < 0 then t0 else t1
    let tmin1 := Max.max t_in tmin
    let tmax1 := Min.min t_out tmax
    if tmax1 < tmin1 then none else some (tmin1, tmax1)

/-- Modelled from the spec: `AABB::hit(ray, tMin, tMax)`, the slab test over the three axes,
returning false as soon as the interval becomes empty. -/
def AABB.hit (box : AABB K) (r : Ray K) (tmin tmax : K) : Bool :=
  match AABB.hit_axis box.min.x box.max.x r.origin.x r.direction.x tmin tmax with
  | none => false
  | some (tmin1, tmax1) =>
    match AABB.hit_axis box.min.y box.max.y r.origin.y r.direction.y tmin1 tmax1 with
    | none => false
    | some (tmin2, tmax2) =>
      match AABB.hit_axis box.min.z box.max.z r.origin.z r.direction.z tmin2 tmax2 with
      | none => false
      | some _ => true

end Boxes

/-- Modelled from the spec: the abstract class `Hittable` of `hittable.h` with its two virtual
member functions.  `hit` returns the flag and the record after the call (`none`: the call ran
into undefined behaviour); `bounding_box` returns the flag and the box after the call. -/
structure Hittable (K M : Type) where
  hit : Ray K → K → K → hit_record K M → Option (Bool × hit_record K M)
  bounding_box : K → K → AABB K → Bool × AABB K

/-- An entry uses the reference parameter of `bounding_box` as an output only: neither the
returned flag nor, on success, the box written depends on the box passed in. -/
def Hittable.BoxIsOutput {K M : Type} (h : Hittable K M) (t0 t1 : K) : Prop :=
  ∀ b b' : AABB K, (h.bounding_box t0 t1 b).1 = (h.bounding_box t0 t1 b').1 ∧
    ((h.bounding_box t0 t1 b).1 = true → (h.bounding_box t0 t1 b).2 = (h.bounding_box t0 t1 b').2)

/-! ## The BVH of `bvh.hpp`, which is not among the sources -/

/-- Modelled from the spec: the shape of a `BVHnode` of `bvh.hpp`: a node owns two children
and the box enclosing both; a child is either a further node or an entry of the list. -/
inductive BVHnode (K M : Type) where
  | object (h : Hittable K M) : BVHnode K M
  | node (left right : BVHnode K M) (box : AABB K) : BVHnode K M

section BVHHit

variable {K M : Type} [LinearOrderedField K]

/-- Modelled from the spec: the traversal `BVHnode::hit` of `bvh.hpp`: "reject immediately if
the node's own box is missed; otherwise test the left child, then test the right child with
tMax tightened to the left hit's t if the left child hit; return whichever hit remains".  A
child that is an entry answers with its own `hit`. -/
def BVHnode.hit : BVHnode K M → Ray K → K → K → hit_record K M →
    Option (Bool × hit_record K M)
  | .object h, r, tmin, tmax, rec => h.hit r tmin tmax rec
  | .node left right box, r, tmin, tmax, rec =>
    if box.hit r tmin tmax then
      match left.hit r tmin tmax rec with
      | none => none
      | some (hit_left, rec1) =>
        match right.hit r tmin (if hit_left then rec1.t else tmax) rec1 with
        | none => none
        | some (hit_right, rec2) => some (hit_left || hit_right, rec2)
    else
      some (false, rec)

/-- Modelled from the spec: `BVHnode::bounding_box`: a node reports its stored box; a child
that is an entry answers with its own `bounding_box`. -/
def BVHnode.bounding_box : BVHnode K M → K → K → AABB K → Bool × AABB K
  | .object h, t0, t1, output_box => h.bounding_box t0 t1 output_box
  | .node _ _ box, _, _, _ => (true, box)

/-- Modelled from the spec: the box of a sphere, "center ± radius along every axis". -/
def Sphere.bounding_box (s : Sphere K) (_t0 _t1 : K) (_output_box : AABB K) : Bool × AABB K :=
  (true, { min := s.center.sub ⟨s.radius, s.radius, s.radius⟩
           max := s.center.add ⟨s.radius, s.radius, s.radius⟩ })

/-- A `Sphere` seen through a `shared_ptr<Hittable>`: virtual dispatch to `Sphere::hit`. -/
def Sphere.toHittable (sqrt : K → K) (s : Sphere K) : Hittable K M :=
  { hit := fun r tmin tmax rec => some (s.hit sqrt r tmin tmax rec)
    bounding_box := s.bounding_box }

/-- Modelled from the spec: the component of a vector on an axis (0, 1, 2 for x, y, z). -/
def Vec3.get (v : Vec3 K) (axis : Fin 3) : K :=
  match axis with
  | 0 => v.x
  | 1 => v.y
  | 2 => v.z

/-- Modelled from the spec: the key of the per-axis comparator of the BVH construction, an
entry's "box's minimum coordinate on the chosen axis". -/
def BVHnode.box_key (axis : Fin 3) (time0 time1 : K) (temp_box : AABB K) (h : Hittable K M) : K :=
  (h.bounding_box time0 time1 temp_box).2.min.get axis

/-- Modelled from the spec: step 5 of the BVH construction, "the node's box is
`surroundingBox` of the two children's boxes". -/
def BVHnode.join (time0 time1 : K) (temp_box : AABB K) (left right : BVHnode K M) :
    BVHnode K M :=
  .node left right
    (surrounding_box (left.bounding_box time0 time1 temp_box).2
      (right.bounding_box time0 time1 temp_box).2)

/-- Modelled from the spec: a half of a split range "becoming one child (wrapped in a new
internal node if the subrange size > 1)"; `build` constructs the node for a longer subrange. -/
def BVHnode.child (build : List (Hittable K M) → Option (BVHnode K M))
    (sub : List (Hittable K M)) : Option (BVHnode K M) :=
  match sub with
  | [a] => some (.object a)
  | _ => build sub

/-- Modelled from the spec: the BVH construction of `bvh.hpp` over the entries of one index
range (section 4.4, steps 1 to 5).  `axis depth range` is the split axis chosen for a range
(the spec leaves the choice open).  A range with an entry that has no bounding box, and an
empty range, are construction-time errors (`none`).  One entry: both children alias it.  Two
entries: ordered by the key.  Otherwise the range is sorted by the key and split at the
midpoint; each half becomes a child, wrapped in a new node when it holds more than one entry.
The first argument bounds the recursion depth; the number of entries is always enough. -/
def BVHnode.build_range (axis : Nat → List (Hittable K M) → Fin 3) (time0 time1 : K)
    (temp_box : AABB K) : Nat → Nat → List (Hittable K M) → Option (BVHnode K M)
  | 0, _, _ => none
  | fuel + 1, depth, range =>
    if range.all (fun h => (h.bounding_box time0 time1 temp_box).1) then
      match range with
      | [] => none
      | [a] => some (BVHnode.join time0 time1 temp_box (.object a) (.object a))
      | [a, b] =>
        if BVHnode.box_key (axis depth range) time0 time1 temp_box a
            ≤ BVHnode.box_key (axis depth range) time0 time1 temp_box b then
          some (BVHnode.join time0 time1 temp_box (.object a) (.object b))
        else
          some (BVHnode.join time0 time1 temp_box (.object b) (.object a))
      | _ =>
        let sorted := List.insertionSort
          (fun a b => BVHnode.box_key (axis depth range) time0 time1 temp_box a
            ≤ BVHnode.box_key (axis depth range) time0 time1 temp_box b) range
        let mid := range.length / 2
        let build := BVHnode.build_range axis time0 time1 temp_box fuel (depth + 1)
        match BVHnode.child build (sorted.take mid), BVHnode.child build (sorted.drop mid) with
        | some left, some right => some (BVHnode.join time0 time1 temp_box left right)
        | _, _ => none
    else
      none

/-- Modelled from the spec: the constructor `BVHnode(objects, start, end, time0, time1)`
over the half-open index range `[start, end)` of a working copy of `objects`. -/
def BVHnode.build (axis : Nat → List (Hittable K M) → Fin 3) (temp_box : AABB K)
    (objects : List (Hittable K M)) (start end_ : Nat) (time0 time1 : K) :
    Option (BVHnode K M) :=
  BVHnode.build_range axis time0 time1 temp_box (end_ - start) 0
    ((objects.drop start).take (end_ - start))

end BVHHit

/-! ## `hittablelist.hpp` -/

/-- The class `HittableList`: the entries and the BVH root (`none` is the empty pointer). -/
structure HittableList (K M : Type) where
  objects : List (Hittable K M)
  root : Option (BVHnode K M)

namespace HittableList

variable {K M : Type} [LinearOrderedField K]

/-- The constant `HittableList::threshold`. -/
def threshold : Nat := 10

/-- The default constructor `HittableList()`. -/
def empty : HittableList K M := ⟨[], none⟩

/-- The member `add`: `objects.push_back(object)`. -/
def add (l : HittableList K M) (object : Hittable K M) : HittableList K M :=
  { l with objects := l.objects ++ [object] }

/-- The member `clear`: `objects.clear()`. -/
def clear (l : HittableList K M) : HittableList K M :=
  { l with objects := [] }

/-- The loop of `hit_force` over the remaining entries; the state is `closest_so_far`,
`temp_rec`, `hit_anything` and the caller's `rec`. -/
def hit_force_loop (r : Ray K) (tmin : K) :
    List (Hittable K M) → K → hit_record K M → Bool → hit_record K M →
      Option (Bool × hit_record K M)
  | [], _, _, hit_anything, rec => some (hit_anything, rec)
  | object :: rest, closest_so_far, temp_rec, hit_anything, rec =>
    match object.hit r tmin closest_so_far temp_rec with
    | none => none
    | some (true, temp_rec1) => hit_force_loop r tmin rest temp_rec1.t temp_rec1 true temp_rec1
    | some (false, temp_rec1) =>
      hit_force_loop r tmin rest closest_so_far temp_rec1 hit_anything rec

/-- The member `hit_force(r, tmin, tmax, rec)`.  The local `temp_rec` is declared without an
initial value; `temp_rec` below is its content when the loop starts. -/
def hit_force (l : HittableList K M) (temp_rec : hit_record K M) (r : Ray K) (tmin tmax : K)
    (rec : hit_record K M) : Option (Bool × hit_record K M) :=
  hit_force_loop r tmin l.objects tmax temp_rec false rec

/-- The loop of `bounding_box` over the remaining entries; the state is `temp_box`,
`first_box` and the caller's `output_box`. -/
def bounding_box_loop (t0 t1 : K) :
    List (Hittable K M) → AABB K → Bool → AABB K → Bool × AABB K
  | [], _, _, output_box => (true, output_box)
  | object :: rest, temp_box, first_box, output_box =>
    match object.bounding_box t0 t1 temp_box with
    | (false, _) => (false, output_box)
    | (true, temp_box1) =>
      bounding_box_loop t0 t1 rest temp_box1 false
        (if first_box then temp_box1 else surrounding_box output_box temp_box1)

/-- The member `bounding_box(t0, t1, output_box)`.  The local `temp_box` is declared without
an initial value; `temp_box` below is its content when the loop starts. -/
def bounding_box (l : HittableList K M) (temp_box : AABB K) (t0 t1 : K) (output_box : AABB K) :
    Bool × AABB K :=
  if l.objects.isEmpty then (false, output_box)
  else bounding_box_loop t0 t1 l.objects temp_box true output_box

/-- The member `hit(r, tmin, tmax, rec)`: the linear scan up to `threshold` entries, the BVH
root above it.  `root->hit` on an empty `root` is undefined behaviour (`none`). -/
def hit (l : HittableList K M) (temp_rec : hit_record K M) (r : Ray K) (tmin tmax : K)
    (rec : hit_record K M) : Option (Bool × hit_record K M) :=
  if l.objects.length ≤ threshold then
    l.hit_force temp_rec r tmin tmax rec
  else
    match l.root with
    | none => none
    | some root => root.hit r tmin tmax rec

/-- The member `build()`: nothing happens up to `threshold` entries; above it the root
becomes `make_shared<BVHnode>(objects, 0, objects.size(), eps, infinity)`.  `axis` and
`temp_box` are passed on to the constructor of `bvh.hpp`; `none` is a construction-time
error of that constructor. -/
def build (axis : Nat → List (Hittable K M) → Fin 3) (temp_box : AABB K) (eps infinity : K)
    (l : HittableList K M) : Option (HittableList K M) :=
  if l.objects.length ≤ threshold then
    some l
  else
    match BVHnode.build axis temp_box l.objects 0 l.objects.length eps infinity with
    | none => none
    | some root => some { l with root := some root }

/-- A `HittableList` seen through a `Hittable` reference, as `ray_color` receives it. -/
def toHittable (l : HittableList K M) (temp_rec : hit_record K M) (temp_box : AABB K) :
    Hittable K M :=
  { hit := l.hit temp_rec
    bounding_box := l.bounding_box temp_box }

end HittableList

/-! ## The integrators `ray_color` (`main1.cpp`, `main5.cpp`) -/

/-- Modelled from the spec: the material contract of `material.hpp`, as `ray_color` consumes
it: `emitted(ray, hit, u, v, point)`, `scatter(ray, hit)` with the optional result (albedo,
scattered ray, pdf), and `scattering_pdf(ray, hit, scattered)`.  `G` is the state of the random
source, which `scatter` may advance. -/
structure Material (K M G : Type) where
  emitted : Ray K → hit_record K M → K → K → Point3 K → Color K
  scatter : Ray K → hit_record K M → G → Option (Color K × Ray K × K) × G
  scattering_pdf : Ray K → hit_record K M → Ray K → K

section Integrators

variable {K M G : Type} [LinearOrderedField K]

/-- The function `ray_color(r, background, world, depth)` of `main1.cpp`.

Parameters standing for what `vec3.hpp`, `raytracer.h` and `material.hpp` provide:
`unit_vector`, the constants `eps` and `infinity`, the random source `random_double(lo, hi)`
threading its state `G`, and `material`, the object behind a non-empty material pointer.
`unit_vector(v)` is `v / v.length()`; on the zero vector that is `0 / 0`, which the embedding
leaves open by taking the function as a parameter (see `Vec3.Normalizes`).  `rec0 depth` is
the content of the local `rec`, declared without an initial value, in the call with that
`depth`.  The two coordinates of `on_light` are drawn left to right.  The result is `none`
when the call runs into undefined behaviour (an empty pointer is dereferenced). -/
def Main1.ray_color (unit_vector : Vec3 K → Vec3 K) (eps infinity : K)
    (random_double : K → K → G → K × G)
    (material : M → Material K M G) (rec0 : Int → hit_record K M) (background : Color K)
    (world : Hittable K M) (r : Ray K) (depth : Int) (g : G) : Option (Color K × G) :=
  if depth < 0 then
    some (Vec3.zero, g)
  else
    match world.hit r eps infinity (rec0 depth) with
    | none => none
    | some (false, _) => some (background, g)
    | some (true, rec) =>
      match rec.mat_ptr with
      | none => none
      | some m =>
        let emitted := (material m).emitted r rec rec.u rec.v rec.p
        match (material m).scatter r rec g with
        | (none, g1) => some (emitted, g1)
        | (some (albedo, _, _), g1) =>
          let x := random_double 213 343 g1
          let z := random_double 227 332 x.2
          let on_light : Point3 K := ⟨x.1, 554, z.1⟩
          let to_light := on_light.sub rec.p
          let distance_squared := to_light.length_sqr
          let to_light := unit_vector to_light
          if Vec3.dot to_light rec.norm < 0 then
            some (emitted, z.2)
          else
            let light_area : K := (343 - 213) * (332 - 227)
            let light_cosine := |to_light.y|
            if light_cosine < eps then
              some (emitted, z.2)
            else
              let pdf := distance_squared / (light_cosine * light_area)
              let scattered : Ray K := ⟨rec.p, to_light, r.time⟩
              match Main1.ray_color unit_vector eps infinity random_double material rec0
                  background world scattered (depth - 1) z.2 with
              | none => none
              | some (c, g2) =>
                some (emitted.add
                  (((albedo.smul ((material m).scattering_pdf r rec scattered)).mul c).sdiv pdf),
                  g2)
termination_by (depth + 1).toNat
decreasing_by omega

/-- The function `ray_color(r, world, depth)` of `main5.cpp`.

Parameters standing for what `raytracer.h` and `vec3.hpp` provide: `unit_vector` (as for
`Main1.ray_color`), `eps`, `infinity` and the random source `random_unit_vector()` threading
its state `G`.  `rec0 depth` is the content of the local `rec` in the call with that `depth`.
The two-argument `Ray` constructor leaves the time at 0. -/
def Main5.ray_color (unit_vector : Vec3 K → Vec3 K) (eps infinity : K)
    (random_unit_vector : G → Vec3 K × G)
    (rec0 : Int → hit_record K M) (world : Hittable K M) (r : Ray K) (depth : Int) (g : G) :
    Option (Color K × G) :=
  if depth < 0 then
    some (Vec3.zero, g)
  else
    match world.hit r eps infinity (rec0 depth) with
    | none => none
    | some (true, rec) =>
      let v := random_unit_vector g
      let target : Point3 K := (rec.p.add rec.norm).add v.1
      match Main5.ray_color unit_vector eps infinity random_unit_vector rec0 world
          ⟨rec.p, target.sub rec.p, 0⟩ (depth - 1) v.2 with
      | none => none
      | some (c, g1) => some (Vec3.smul 0.5 c, g1)
    | some (false, _) =>
      let unit_direction := unit_vector r.direction
      let t := 0.5 * (unit_direction.y + 1.0)
      some ((Vec3.smul (1.0 - t) ⟨1.0, 1.0, 1.0⟩).add (Vec3.smul t ⟨0.5, 0.7, 1.0⟩), g)
termination_by (depth + 1).toNat
decreasing_by omega

/-- The constant `light_area` of `ray_color` (`main1.cpp`), `(343 - 213) * (332 - 227)`. -/
def Main1.light_area : K := (343 - 213) * (332 - 227)

/-- The local `on_light` of `ray_color` (`main1.cpp`) and the state of the random source after
its two draws. -/
def Main1.on_light (random_double : K → K → G → K × G) (g : G) : Point3 K × G :=
  let x := random_double 213 343 g
  let z := random_double 227 332 x.2
  (⟨x.1, 554, z.1⟩, z.2)

/-- The local `distance_squared` of `ray_color` (`main1.cpp`) for a light point and a hit
point. -/
def Main1.distance_squared (on_light p : Point3 K) : K := (on_light.sub p).length_sqr

/-- The local `to_light` of `ray_color` (`main1.cpp`) after `to_light = unit_vector(to_light)`. -/
def Main1.to_light (unit_vector : Vec3 K → Vec3 K) (on_light p : Point3 K) : Vec3 K :=
  unit_vector (on_light.sub p)

/-- The local `light_cosine` of `ray_color` (`main1.cpp`), `fabs(to_light.y())`. -/
def Main1.light_cosine (unit_vector : Vec3 K → Vec3 K) (on_light p : Point3 K) : K :=
  |(Main1.to_light unit_vector on_light p).y|

/-- The local `pdf` of `ray_color` (`main1.cpp`) as assigned before the final expression,
`distance_squared / (light_cosine * light_area)`. -/
def Main1.pdf (unit_vector : Vec3 K → Vec3 K) (on_light p : Point3 K) : K :=
  Main1.distance_squared on_light p
    / (Main1.light_cosine unit_vector on_light p * Main1.light_area)

/-- The function `ray_color` of `main1.cpp` once more, returning next to its result the
number of `world.hit` queries that the call and the calls below it perform. -/
def Main1.ray_color_traced (unit_vector : Vec3 K → Vec3 K) (eps infinity : K)
    (random_double : K → K → G → K × G)
    (material : M → Material K M G) (rec0 : Int → hit_record K M) (background : Color K)
    (world : Hittable K M) (r : Ray K) (depth : Int) (g : G) : Option (Color K × G) × Nat :=
  if depth < 0 then
    (some (Vec3.zero, g), 0)
  else
    match world.hit r eps infinity (rec0 depth) with
    | none => (none, 1)
    | some (false, _) => (some (background, g), 1)
    | some (true, rec) =>
      match rec.mat_ptr with
      | none => (none, 1)
      | some m =>
        let emitted := (material m).emitted r rec rec.u rec.v rec.p
        match (material m).scatter r rec g with
        | (none, g1) => (some (emitted, g1), 1)
        | (some (albedo, _, _), g1) =>
          let x := random_double 213 343 g1
          let z := random_double 227 332 x.2
          let on_light : Point3 K := ⟨x.1, 554, z.1⟩
          let to_light := on_light.sub rec.p
          let distance_squared := to_light.length_sqr
          let to_light := unit_vector to_light
          if Vec3.dot to_light rec.norm < 0 then
            (some (emitted, z.2), 1)
          else
            let light_area : K := (343 - 213) * (332 - 227)
            let light_cosine := |to_light.y|
            if light_cosine < eps then
              (some (emitted, z.2), 1)
            else
              let pdf := distance_squared / (light_cosine * light_area)
              let scattered : Ray K := ⟨rec.p, to_light, r.time⟩
              let below := Main1.ray_color_traced unit_vector eps infinity random_double material
                rec0 background world scattered (depth - 1) z.2
              (match below.1 with
                | none => none
                | some (c, g2) =>
                  some (emitted.add
                    (((albedo.smul ((material m).scattering_pdf r rec scattered)).mul c).sdiv
                      pdf), g2),
               below.2 + 1)
termination_by (depth + 1).toNat
decreasing_by omega

/-- The function `ray_color` of `main5.cpp` once more, returning next to its result the
number of `world.hit` queries that the call and the calls below it perform. -/
def Main5.ray_color_traced (unit_vector : Vec3 K → Vec3 K) (eps infinity : K)
    (random_unit_vector : G → Vec3 K × G)
    (rec0 : Int → hit_record K M) (world : Hittable K M) (r : Ray K) (depth : Int) (g : G) :
    Option (Color K × G) × Nat :=
  if depth < 0 then
    (some (Vec3.zero, g), 0)
  else
    match world.hit r eps infinity (rec0 depth) with
    | none => (none, 1)
    | some (true, rec) =>
      let v := random_unit_vector g
      let target : Point3 K := (rec.p.add rec.norm).add v.1
      let below := Main5.ray_color_traced unit_vector eps infinity random_unit_vector rec0 world
        ⟨rec.p, target.sub rec.p, 0⟩ (depth - 1) v.2
      (match below.1 with
        | none => none
        | some (c, g1) => some (Vec3.smul 0.5 c, g1),
       below.2 + 1)
    | some (false, _) =>
      let unit_direction := unit_vector r.direction
      let t := 0.5 * (unit_direction.y + 1.0)
      (some ((Vec3.smul (1.0 - t) ⟨1.0, 1.0, 1.0⟩).add (Vec3.smul t ⟨0.5, 0.7, 1.0⟩), g), 1)
termination_by (depth + 1).toNat
decreasing_by omega

/-- The world that `main` of `main5.cpp` builds: `Sphere(Point3(0, 0, -1), 0.5)` and
`Sphere(Point3(0, -100.5, -1), 100)` added in this order to an empty `HittableList`, seen as
the `Hittable` passed to `ray_color`. -/
def main5_scene (sqrt : K → K) (temp_rec : hit_record K M) (temp_box : AABB K) :
    Hittable K M :=
  ((HittableList.empty.add (Sphere.toHittable sqrt ⟨⟨0, 0, -1⟩, 0.5⟩)).add
    (Sphere.toHittable sqrt ⟨⟨0, -100.5, -1⟩, 100⟩)).toHittable temp_rec temp_box

end Integrators

/-! ## The arithmetic of `double`

The definitions above read `+`, `-`, `*`, `/` as the exact operations of the field.  The
definitions of this section take the arithmetic as a parameter `A : Arith K`, so that the same
code can be run with exact operations (`Arith.exact`) and with the rounded operations of IEEE
754 binary64 (`binary64`, over `ℚ`).  Comparison and unary minus are exact in both. -/

/-- The results of the operations of `double` arithmetic that can round: `+`, `-`, `*`, `/`
and `sqrt`. -/
structure Arith (K : Type) where
  add : K → K → K
  sub : K → K → K
  mul : K → K → K
  div : K → K → K
  sqrt : K → K

/-- Exact arithmetic: the operations of the field, with a given `sqrt`. -/
def Arith.exact {K : Type} [LinearOrderedField K] (sqrt : K → K) : Arith K :=
  { add := fun x y => x + y
    sub := fun x y => x - y
    mul := fun x y => x * y
    div := fun x y => x / y
    sqrt := sqrt }

/-- Numerator and denominator of `n / d * 2 ^ s` for an integer exponent `s`. -/
def scaled (n d : Nat) (s : Int) : Nat × Nat :=
  (n * 2 ^ s.toNat, d * 2 ^ (-s).toNat)

/-- The loop of `bit_length`: halve until zero, counting. -/
def bit_length_loop : Nat → Nat → Nat → Nat
  | 0, _, acc => acc
  | fuel + 1, n, acc => if n = 0 then acc else bit_length_loop fuel (n / 2) (acc + 1)

/-- The number of binary digits of `n` (0 for 0). -/
def bit_length (n : Nat) : Nat := bit_length_loop n n 0

/-- The positive rational `n / d` rounded to 53 significant bits, to nearest, ties to even:
scale by the power of two `2 ^ s` that brings it into `[2^52, 2^53)`, round the scaled value to
an integer, scale back. -/
def round53_pos (n d : Nat) : ℚ :=
  let e : Int := (bit_length n : Int) - (bit_length d : Int)
  let s0 : Int := 52 - e
  let q0 := scaled n d s0
  let s : Int := if q0.1 / q0.2 < 2 ^ 52 then s0 + 1 else s0
  let q := scaled n d s
  let m := q.1 / q.2
  let rem := q.1 % q.2
  let m1 := if 2 * rem > q.2 ∨ (2 * rem = q.2 ∧ m % 2 = 1) then m + 1 else m
  ((m1 * 2 ^ (-s).toNat : Nat) : ℚ) / ((2 ^ s.toNat : Nat) : ℚ)

/-- Rounding of a rational number to the nearest binary64 value, ties to even.  The exponent
range is not bounded: overflow, underflow and subnormal numbers are not modelled. -/
def round53 (q : ℚ) : ℚ :=
  if q = 0 then 0
  else if 0 < q then round53_pos q.num.natAbs q.den
  else -round53_pos q.num.natAbs q.den

/-- The loop of `isqrt`: Newton steps `x ↦ (x + n / x) / 2` from above, until they stop
decreasing. -/
def isqrt_loop : Nat → Nat → Nat → Nat
  | 0, _, x => x
  | fuel + 1, n, x =>
    let y := (x + n / x) / 2
    if y < x then isqrt_loop fuel n y else x

/-- The integer square root `⌊√n⌋`. -/
def isqrt (n : Nat) : Nat :=
  if n = 0 then 0 else isqrt_loop (bit_length n + 1) n (2 ^ (bit_length n / 2 + 1))

/-- The correctly rounded binary64 square root of a positive rational: scale by `4 ^ t` so that
the integer square root `m` has 54 bits, then round `m` to 53 bits, to nearest, ties to even,
the tie being decided by whether `m` is the exact root.  On `q ≤ 0` the value is 0 (the source
yields a NaN on negative numbers; no caller below takes the root of one). -/
def sqrt53 (q : ℚ) : ℚ :=
  if q ≤ 0 then 0
  else
    let n := q.num.natAbs
    let d := q.den
    let e : Int := (bit_length n : Int) - (bit_length d : Int)
    let t0 : Int := (107 - e) / 2
    let q0 := scaled n d (2 * t0)
    let t : Int := if q0.1 / q0.2 < 2 ^ 106 then t0 + 1 else t0
    let qq := scaled n d (2 * t)
    let x := qq.1 / qq.2
    let m := isqrt x
    let inexact : Bool := decide (¬ (qq.1 % qq.2 = 0 ∧ m * m = x))
    let m1 := if m % 2 = 1 ∧ (inexact = true ∨ (m / 2) % 2 = 1) then m / 2 + 1 else m / 2
    ((m1 * 2 ^ (1 - t).toNat : Nat) : ℚ) / ((2 ^ (t - 1).toNat : Nat) : ℚ)

/-- The arithmetic of IEEE 754 binary64 in the default rounding mode, on the rationals: every
operation returns the exact result rounded by `round53`, and `sqrt` is correctly rounded.
Division by zero, which yields an infinity or a NaN in the source, is outside the model. -/
def binary64 : Arith ℚ :=
  { add := fun x y => round53 (x + y)
    sub := fun x y => round53 (x - y)
    mul := fun x y => round53 (x * y)
    div := fun x y => round53 (x / y)
    sqrt := sqrt53 }

section Rounded

variable {K M : Type} [LinearOrderedField K]

/-- Modelled from the spec: `operator+` of `vec3.hpp` in the arithmetic `A`. -/
def Vec3.add_fl (A : Arith K) (a b : Vec3 K) : Vec3 K :=
  ⟨A.add a.x b.x, A.add a.y b.y, A.add a.z b.z⟩

/-- Modelled from the spec: `operator-` of `vec3.hpp` in the arithmetic `A`. -/
def Vec3.sub_fl (A : Arith K) (a b : Vec3 K) : Vec3 K :=
  ⟨A.sub a.x b.x, A.sub a.y b.y, A.sub a.z b.z⟩

/-- Modelled from the spec: `operator*(double, Vec3)` of `vec3.hpp` in the arithmetic `A`. -/
def Vec3.smul_fl (A : Arith K) (k : K) (a : Vec3 K) : Vec3 K :=
  ⟨A.mul k a.x, A.mul k a.y, A.mul k a.z⟩

/-- Modelled from the spec: `operator/(Vec3, double)` of `vec3.hpp` in the arithmetic `A`, each
component divided by the scalar. -/
def Vec3.sdiv_fl (A : Arith K) (a : Vec3 K) (k : K) : Vec3 K :=
  ⟨A.div a.x k, A.div a.y k, A.div a.z k⟩

/-- Modelled from the spec: `dot(u, v)` of `vec3.hpp` in the arithmetic `A`, the three products
summed from left to right. -/
def Vec3.dot_fl (A : Arith K) (a b : Vec3 K) : K :=
  A.add (A.add (A.mul a.x b.x) (A.mul a.y b.y)) (A.mul a.z b.z)

/-- Modelled from the spec: `Vec3::length_sqr()` of `vec3.hpp` in the arithmetic `A`, the three
squares summed from left to right. -/
def Vec3.length_sqr_fl (A : Arith K) (a : Vec3 K) : K :=
  A.add (A.add (A.mul a.x a.x) (A.mul a.y a.y)) (A.mul a.z a.z)

/-- Modelled from the spec: `Ray::at(t)` in the arithmetic `A`, `origin + t * direction`. -/
def Ray.at_fl (A : Arith K) (r : Ray K) (t : K) : Point3 K :=
  Vec3.add_fl A r.origin (Vec3.smul_fl A t r.direction)

/-- The body of the two accepting branches of `Sphere::hit` in the arithmetic `A`. -/
def Sphere.record_fl (A : Arith K) (s : Sphere K) (r : Ray K) (temp : K)
    (rec : hit_record K M) : hit_record K M :=
  let rec1 := { rec with t := temp }
  let rec2 := { rec1 with p := Ray.at_fl A r rec1.t }
  { rec2 with norm := Vec3.sdiv_fl A (Vec3.sub_fl A rec2.p s.center) s.radius }

/-- The member `Sphere::hit(r, tmin, tmax, rec)` in the arithmetic `A`: every `+`, `-`, `*`,
`/` and `sqrt` of the source is an operation of `A`, in the order in which the source
evaluates them, each rounded on its own (no fused multiply-add); the comparisons and the
negation `-half_b` are exact. -/
def Sphere.hit_fl (A : Arith K) (s : Sphere K) (r : Ray K) (tmin tmax : K)
    (rec : hit_record K M) : Bool × hit_record K M :=
  let oc := Vec3.sub_fl A r.origin s.center
  let a := Vec3.length_sqr_fl A r.direction
  let half_b := Vec3.dot_fl A oc r.direction
  let c := A.sub (Vec3.length_sqr_fl A oc) (A.mul s.radius s.radius)
  let discriminant := A.sub (A.mul half_b half_b) (A.mul a c)
  if discriminant > 0 then
    let root := A.sqrt discriminant
    let temp := A.div (A.sub (-half_b) root) a
    if temp < tmax ∧ temp > tmin then
      (true, s.record_fl A r temp rec)
    else
      let temp := A.div (A.add (-half_b) root) a
      if temp < tmax ∧ temp > tmin then
        (true, s.record_fl A r temp rec)
      else
        (false, rec)
  else
    (false, rec)

end Rounded

/-! ## `onb.hpp` -/

section Frames

variable {K : Type} [LinearOrderedField K]

/-- The class `ONB` of `onb.hpp`: its member `Vec3 axis[3]`. -/
structure ONB (K : Type) where
  axis0 : Vec3 K
  axis1 : Vec3 K
  axis2 : Vec3 K
deriving DecidableEq

/-- The member `ONB::u()`: `axis[0]`. -/
def ONB.u (o : ONB K) : Vec3 K := o.axis0

/-- The member `ONB::v()`: `axis[1]`. -/
def ONB.v (o : ONB K) : Vec3 K := o.axis1

/-- The member `ONB::w()`: `axis[2]`. -/
def ONB.w (o : ONB K) : Vec3 K := o.axis2

/-- The member `ONB::local(a, b, c)`: `a * u() + b * v() + c * w()`. -/
def ONB.local (o : ONB K) (a b c : K) : Vec3 K :=
  ((Vec3.smul a o.u).add (Vec3.smul b o.v)).add (Vec3.smul c o.w)

/-- The member `ONB::local(const Vec3 &a)`: `local(a.x(), a.y(), a.z())`. -/
def ONB.local_vec (o : ONB K) (a : Vec3 K) : Vec3 K := o.local a.x a.y a.z

end Frames

/-! ## Sample data for the evaluated examples -/

/-- A record with every field zero and an empty material pointer. -/
def zero_rec : hit_record ℚ Unit := ⟨⟨0, 0, 0⟩, ⟨0, 0, 0⟩, 0, 0, 0, none⟩

/-- The ray from the origin along `(0, 0, -1)`. -/
def down_z : Ray ℚ := ⟨⟨0, 0, 0⟩, ⟨0, 0, -1⟩, 0⟩

/-- Eleven spheres.  The ray `down_z` enters the first two at the same distance `t = 1`, at
the point `(0, 0, -1)`, where their normals differ; it misses the other nine.  On every axis
the second sphere has the smallest box minimum, the first the next one. -/
def tie_scene : List (Sphere ℚ) :=
  [⟨⟨0, 0, -2⟩, 1⟩, ⟨⟨0, 3, -5⟩, 5⟩,
   ⟨⟨10, 10, 10⟩, 1⟩, ⟨⟨20, 20, 20⟩, 1⟩, ⟨⟨30, 30, 30⟩, 1⟩, ⟨⟨40, 40, 40⟩, 1⟩,
   ⟨⟨50, 50, 50⟩, 1⟩, ⟨⟨60, 60, 60⟩, 1⟩, ⟨⟨70, 70, 70⟩, 1⟩, ⟨⟨80, 80, 80⟩, 1⟩,
   ⟨⟨90, 90, 90⟩, 1⟩]

/-- The list holding `tie_scene`, before `build()`. -/
def tie_world : HittableList ℚ Unit := ⟨tie_scene.map (Sphere.toHittable Rat.sqrt), none⟩

/-- A version of `unit_vector` over `ℚ`: the vector divided by its length (`Rat.sqrt` of the
squared length) off the zero vector, and `at_zero` on the zero vector, where the source
computes `0 / 0`. -/
def unit_vector_with (at_zero : Vec3 ℚ) (v : Vec3 ℚ) : Vec3 ℚ :=
  if v = Vec3.zero then at_zero else v.unit_vector Rat.sqrt

/-- A random source whose every `random_double(lo, hi)` returns `lo`. -/
def lowest_draw (lo _hi : ℚ) (g : Unit) : ℚ × Unit := (lo, g)

/-- A world in which every ray hits at the point `p`, with normal `norm`, at `t = 1`, on a
surface that has a material. -/
def point_world (p norm : Vec3 ℚ) : Hittable ℚ Unit :=
  { hit := fun _ _ _ rec => some (true, { rec with p := p, norm := norm, t := 1, mat_ptr := some () })
    bounding_box := fun _ _ b => (false, b) }

/-- A world in which the rays that leave the origin hit at the point `p`, with normal `norm`,
at `t = 1`, on a surface that has a material, and every other ray misses. -/
def origin_world (p norm : Vec3 ℚ) : Hittable ℚ Unit :=
  { hit := fun r _ _ rec =>
      if r.origin = ⟨0, 0, 0⟩ then
        some (true, { rec with p := p, norm := norm, t := 1, mat_ptr := some () })
      else some (false, rec)
    bounding_box := fun _ _ b => (false, b) }

/-- A material that emits nothing and always scatters with albedo `(1, 1, 1)`. -/
def plain_material : Unit → Material ℚ Unit Unit := fun _ =>
  { emitted := fun _ _ _ _ _ => ⟨0, 0, 0⟩
    scatter := fun r _ g => (some (⟨1, 1, 1⟩, r, 1), g)
    scattering_pdf := fun _ _ _ => 1 }

/-- The world of `main5.cpp` over the rationals, with `Rat.sqrt`. -/
def main5_world : Hittable ℚ Unit :=
  main5_scene Rat.sqrt zero_rec ⟨⟨0, 0, 0⟩, ⟨0, 0, 0⟩⟩

section SphereTheorems

variable {K M : Type} [LinearOrderedField K]

/-- The function `Sphere::hit` written with the named discriminant and roots. -/
theorem Sphere.hit_eq (sqrt : K → K) (s : Sphere K) (r : Ray K) (tmin tmax : K)
    (rec : hit_record K M) :
    s.hit sqrt r tmin tmax rec =
      if s.discriminant r > 0 then
        if s.root_neg sqrt r < tmax ∧ s.root_neg sqrt r > tmin then
          (true, s.record r (s.root_neg sqrt r) rec)
        else if s.root_pos sqrt r < tmax ∧ s.root_pos sqrt r > tmin then
          (true, s.record r (s.root_pos sqrt r) rec)
        else (false, rec)
      else (false, rec) := rfl

/-- A ray with a non-zero direction has `a = |dir|^2 > 0`. -/
theorem Vec3.length_sqr_pos {v : Vec3 K} (hv : v ≠ Vec3.zero) : 0 < v.length_sqr := by
  have h : v.x ≠ 0 ∨ v.y ≠ 0 ∨ v.z ≠ 0 := by
    by_contra hc
    push_neg at hc
    apply hv
    cases v
    simp_all [Vec3.zero]
  unfold Vec3.length_sqr
  rcases h with h | h | h
  · have := mul_self_pos.mpr h
    nlinarith [mul_self_nonneg v.y, mul_self_nonneg v.z]
  · have := mul_self_pos.mpr h
    nlinarith [mul_self_nonneg v.x, mul_self_nonneg v.z]
  · have := mul_self_pos.mpr h
    nlinarith [mul_self_nonneg v.x, mul_self_nonneg v.y]

/-- With a non-zero direction and a non-negative square root the first root is the smaller. -/
theorem Sphere.root_neg_le_root_pos (sqrt : K → K) (s : Sphere K) (r : Ray K)
    (hd : r.direction ≠ Vec3.zero) (hs : 0 ≤ sqrt (s.discriminant r)) :
    s.root_neg sqrt r ≤ s.root_pos sqrt r := by
  unfold Sphere.root_neg Sphere.root_pos
  have ha := Vec3.length_sqr_pos hd
  apply div_le_div_of_nonneg_right _ ha.le
  linarith

/-- Without a strictly positive discriminant `Sphere::hit` returns false and leaves the record
as it was. -/
theorem Sphere.hit_of_discriminant_nonpos (sqrt : K → K) (s : Sphere K) (r : Ray K)
    (tmin tmax : K) (rec : hit_record K M) (hD : s.discriminant r ≤ 0) :
    s.hit sqrt r tmin tmax rec = (false, rec) := by
  rw [Sphere.hit_eq, if_neg (not_lt.mpr hD)]

/-- C4: root selection of `Sphere::hit`.  With `a`, `half_b`, `c` and `D` as in the source:
the call returns false (record untouched) when `D ≤ 0`; when `D > 0` it returns true with
`t = (-half_b - sqrt D) / a` if that root lies strictly inside `(tmin, tmax)`, otherwise true
with `t = (-half_b + sqrt D) / a` if that one does, otherwise false.  For a non-zero direction
and a non-negative `sqrt D` the first root is the smaller of the two. -/
theorem Sphere.hit_root_selection (sqrt : K → K) (s : Sphere K) (r : Ray K) (tmin tmax : K)
    (rec : hit_record K M) :
    let oc := r.origin.sub s.center
    let a := r.direction.length_sqr
    let half_b := Vec3.dot oc r.direction
    let c := oc.length_sqr - s.radius * s.radius
    let D := half_b * half_b - a * c
    let t1 := (-half_b - sqrt D) / a
    let t2 := (-half_b + sqrt D) / a
    (D ≤ 0 → s.hit sqrt r tmin tmax rec = (false, rec)) ∧
    (0 < D → (tmin < t1 ∧ t1 < tmax) →
      (s.hit sqrt r tmin tmax rec).1 = true ∧ (s.hit sqrt r tmin tmax rec).2.t = t1 ∧
        (s.hit sqrt r tmin tmax rec).2 = s.record r t1 rec) ∧
    (0 < D → ¬ (tmin < t1 ∧ t1 < tmax) → (tmin < t2 ∧ t2 < tmax) →
      (s.hit sqrt r tmin tmax rec).1 = true ∧ (s.hit sqrt r tmin tmax rec).2.t = t2 ∧
        (s.hit sqrt r tmin tmax rec).2 = s.record r t2 rec) ∧
    (0 < D → ¬ (tmin < t1 ∧ t1 < tmax) → ¬ (tmin < t2 ∧ t2 < tmax) →
      s.hit sqrt r tmin tmax rec = (false, rec)) ∧
    (r.direction ≠ Vec3.zero → 0 ≤ sqrt D → t1 ≤ t2) := by
  intro oc a half_b c D t1 t2
  have hD : s.discriminant r = D := rfl
  have h1 : s.root_neg sqrt r = t1 := rfl
  have h2 : s.root_pos sqrt r = t2 := rfl
  rw [Sphere.hit_eq, hD, h1, h2]
  refine ⟨?_, ?_, ?_, ?_, ?_⟩
  · intro h
    rw [if_neg (not_lt.mpr h)]
  · intro h ht
    rw [if_pos h, if_pos ⟨ht.2, ht.1⟩]
    exact ⟨rfl, rfl, rfl⟩
  · intro h ht1 ht2
    rw [if_pos h, if_neg (fun hc => ht1 ⟨hc.2, hc.1⟩), if_pos ⟨ht2.2, ht2.1⟩]
    exact ⟨rfl, rfl, rfl⟩
  · intro h ht1 ht2
    rw [if_pos h, if_neg (fun hc => ht1 ⟨hc.2, hc.1⟩), if_neg (fun hc => ht2 ⟨hc.2, hc.1⟩)]
  · intro hd hs
    have := Sphere.root_neg_le_root_pos sqrt s r hd (by rw [hD]; exact hs)
    rwa [h1, h2] at this

/-- C4, evaluated: the unit sphere at distance 3 on the `-z` axis is entered at `t = 2`; seen
from a window that starts behind the first root it is hit at `t = 4`; an empty window misses. -/
theorem Sphere.hit_root_selection_eval :
    (Sphere.hit Rat.sqrt ⟨⟨0, 0, -3⟩, 1⟩ ⟨⟨0, 0, 0⟩, ⟨0, 0, -1⟩, 0⟩ 0 10
        (⟨⟨0, 0, 0⟩, ⟨0, 0, 0⟩, 0, 0, 0, none⟩ : hit_record ℚ Unit))
      = (true, ⟨⟨0, 0, -2⟩, ⟨0, 0, 1⟩, 2, 0, 0, none⟩) ∧
    (Sphere.hit Rat.sqrt ⟨⟨0, 0, -3⟩, 1⟩ ⟨⟨0, 0, 0⟩, ⟨0, 0, -1⟩, 0⟩ 3 10
        (⟨⟨0, 0, 0⟩, ⟨0, 0, 0⟩, 0, 0, 0, none⟩ : hit_record ℚ Unit))
      = (true, ⟨⟨0, 0, -4⟩, ⟨0, 0, -1⟩, 4, 0, 0, none⟩) ∧
    (Sphere.hit Rat.sqrt ⟨⟨0, 0, -3⟩, 1⟩ ⟨⟨0, 0, 0⟩, ⟨0, 0, -1⟩, 0⟩ 5 10
        (⟨⟨0, 0, 0⟩, ⟨0, 0, 0⟩, 0, 0, 0, none⟩ : hit_record ℚ Unit)).1 = false := by
  decide!

/-- C6, the claim fails: the ray from the origin along `-z` is tangent to the sphere of radius
100 around `(0, -100, -1)` (discriminant 0), its single root `t0 = -half_b / a = 1` lies in
`(0, 10)`, and `Sphere::hit` reports no hit. -/
theorem Sphere.hit_tangent_counterexample :
    Sphere.discriminant ⟨⟨0, -100, -1⟩, 100⟩ (⟨⟨0, 0, 0⟩, ⟨0, 0, -1⟩, 0⟩ : Ray ℚ) = 0 ∧
    -(Vec3.dot (Vec3.sub ⟨0, 0, 0⟩ ⟨0, -100, -1⟩) ⟨0, 0, -1⟩)
        / (Vec3.length_sqr ⟨0, 0, -1⟩) = (1 : ℚ) ∧
    (Sphere.hit Rat.sqrt ⟨⟨0, -100, -1⟩, 100⟩ ⟨⟨0, 0, 0⟩, ⟨0, 0, -1⟩, 0⟩ 0 10
        (⟨⟨0, 0, 0⟩, ⟨0, 0, 0⟩, 0, 0, 0, none⟩ : hit_record ℚ Unit)).1 = false := by
  decide!

/-- C6 as amended: for a ray tangent to the sphere (discriminant zero) `Sphere::hit` reports
no hit, whatever `tmin` and `tmax`, and leaves the record as it was: the branch that computes
the roots requires `discriminant > 0`. -/
theorem Sphere.hit_tangent_miss (sqrt : K → K) (s : Sphere K) (r : Ray K) (tmin tmax : K)
    (rec : hit_record K M) (hD : s.discriminant r = 0) :
    s.hit sqrt r tmin tmax rec = (false, rec) := by
  exact Sphere.hit_of_discriminant_nonpos sqrt s r tmin tmax rec hD.le

/-- C6 as amended, at the tangent ray of the counterexample. -/
theorem Sphere.hit_tangent_miss_witness :
    Sphere.hit Rat.sqrt ⟨⟨0, -100, -1⟩, 100⟩ (⟨⟨0, 0, 0⟩, ⟨0, 0, -1⟩, 0⟩ : Ray ℚ) 0 10
        (⟨⟨0, 0, 0⟩, ⟨0, 0, 0⟩, 0, 0, 0, none⟩ : hit_record ℚ Unit)
      = (false, ⟨⟨0, 0, 0⟩, ⟨0, 0, 0⟩, 0, 0, 0, none⟩) :=
  Sphere.hit_tangent_miss Rat.sqrt _ _ 0 10 _ (by decide!)

/-- The accepting branch stores `temp` in `rec.t`. -/
theorem Sphere.record_t (s : Sphere K) (r : Ray K) (t : K) (q : hit_record K M) :
    (s.record r t q).t = t := rfl

/-- The accepting branch overwrites `t`, `p` and `norm` and nothing else. -/
theorem Sphere.record_record (s s' : Sphere K) (r r' : Ray K) (t t' : K) (q : hit_record K M) :
    s.record r t (s'.record r' t' q) = s.record r t q := rfl

/-- Shrinking the upper bound to `c ≤ tmax` keeps the answer for `(tmin, tmax)` when that
answer lies below `c` and turns it into a miss otherwise. -/
theorem Sphere.hit_window (sqrt : K → K) (s : Sphere K) (r : Ray K) (tmin tmax c : K)
    (rec : hit_record K M) (hd : r.direction ≠ Vec3.zero)
    (hs : 0 < s.discriminant r → 0 ≤ sqrt (s.discriminant r)) (hc : c ≤ tmax) :
    s.hit sqrt r tmin c rec =
      if (s.hit sqrt r tmin tmax rec).1 = true ∧ (s.hit sqrt r tmin tmax rec).2.t < c then
        s.hit sqrt r tmin tmax rec
      else (false, rec) := by
  rw [Sphere.hit_eq, Sphere.hit_eq]
  by_cases hD : s.discriminant r > 0
  · have hle := Sphere.root_neg_le_root_pos sqrt s r hd (hs hD)
    simp only [hD, if_true]
    split_ifs <;> simp_all [Sphere.record_t] <;> linarith
  · simp [hD]

/-- The flag and the reported distance of `Sphere::hit` do not depend on the record passed
in; a miss leaves the record untouched. -/
theorem Sphere.hit_shape (sqrt : K → K) (s : Sphere K) (r : Ray K) (tmin tmax : K)
    (q q' : hit_record K M) :
    (s.hit sqrt r tmin tmax q = (false, q) ∧ s.hit sqrt r tmin tmax q' = (false, q')) ∨
    ∃ t, s.hit sqrt r tmin tmax q = (true, s.record r t q) ∧
      s.hit sqrt r tmin tmax q' = (true, s.record r t q') := by
  rw [Sphere.hit_eq, Sphere.hit_eq]
  split_ifs
  · exact Or.inr ⟨_, rfl, rfl⟩
  · exact Or.inr ⟨_, rfl, rfl⟩
  · exact Or.inl ⟨rfl, rfl⟩
  · exact Or.inl ⟨rfl, rfl⟩

/-- A reported distance lies strictly inside `(tmin, tmax)`. -/
theorem Sphere.hit_range (sqrt : K → K) (s : Sphere K) (r : Ray K) (tmin tmax : K)
    (q : hit_record K M) (h : (s.hit sqrt r tmin tmax q).1 = true) :
    tmin < (s.hit sqrt r tmin tmax q).2.t ∧ (s.hit sqrt r tmin tmax q).2.t < tmax := by
  rw [Sphere.hit_eq] at h ⊢
  split_ifs at h ⊢ with h1 h2 h3
  · exact ⟨h2.2, h2.1⟩
  · exact ⟨h3.2, h3.1⟩

end SphereTheorems

/-! ## Boxes (`aabb.hpp`) -/

section BoxTheorems

variable {K M : Type} [LinearOrderedField K]

end BoxTheorems

/-! ## `HittableList::hit_force` and `HittableList::hit` -/

section ListTheorems

variable {K M : Type} [LinearOrderedField K]

/-- The invariant of the loop of `hit_force` over a list of spheres: from a state with upper
bound `c ≤ tmax`, either no remaining sphere reports a distance below `c` and the state is
returned as it is, or the result is the record of the first remaining sphere that attains the
least reported distance, which is below `c`. -/
theorem HittableList.hit_force_loop_spheres (sqrt : K → K)
    (r : Ray K) (hd : r.direction ≠ Vec3.zero) (tmin tmax : K) (temp0 : hit_record K M) :
    ∀ (l : List (Sphere K)) (c : K) (temp : hit_record K M) (ha : Bool) (rec : hit_record K M),
      (∀ s ∈ l, 0 < s.discriminant r → 0 ≤ sqrt (s.discriminant r)) →
      c ≤ tmax → (∀ (s : Sphere K) (t : K), s.record r t temp = s.record r t temp0) →
      ∃ b rec', HittableList.hit_force_loop r tmin (l.map (Sphere.toHittable sqrt)) c temp ha rec
          = some (b, rec') ∧
        (((∀ s ∈ l, (s.hit sqrt r tmin tmax temp0).1 = true →
              c ≤ (s.hit sqrt r tmin tmax temp0).2.t) ∧ b = ha ∧ rec' = rec) ∨
         (∃ l1 s l2, l = l1 ++ s :: l2 ∧ (s.hit sqrt r tmin tmax temp0).1 = true ∧
            (s.hit sqrt r tmin tmax temp0).2.t < c ∧
            (∀ x ∈ l1, (x.hit sqrt r tmin tmax temp0).1 = true →
              (s.hit sqrt r tmin tmax temp0).2.t < (x.hit sqrt r tmin tmax temp0).2.t) ∧
            (∀ x ∈ l2, (x.hit sqrt r tmin tmax temp0).1 = true →
              (s.hit sqrt r tmin tmax temp0).2.t ≤ (x.hit sqrt r tmin tmax temp0).2.t) ∧
            b = true ∧ rec' = (s.hit sqrt r tmin tmax temp0).2)) := by
  intro l
  induction l with
  | nil =>
    intro c temp ha rec _ _ _
    exact ⟨ha, rec, rfl, Or.inl ⟨by simp, rfl, rfl⟩⟩
  | cons s rest ih =>
    intro c temp ha rec hsqrt hc hI
    have hw := Sphere.hit_window sqrt s r tmin tmax c temp hd
      (hsqrt s (List.mem_cons_self _ _)) hc
    have ih := fun c temp ha rec =>
      ih c temp ha rec (fun x hx => hsqrt x (List.mem_cons_of_mem _ hx))
    have hstep : ∀ q, (Sphere.toHittable sqrt s : Hittable K M).hit r tmin c q
        = some (s.hit sqrt r tmin c q) := fun _ => rfl
    rcases Sphere.hit_shape sqrt s r tmin tmax temp temp0 with ⟨h1, h2⟩ | ⟨t, h1, h2⟩
    · -- the sphere is missed altogether
      rw [h1] at hw
      simp only [Bool.false_eq_true, false_and, if_false] at hw
      obtain ⟨b, rec', hrun, hres⟩ := ih c temp ha rec hc hI
      refine ⟨b, rec', ?_, ?_⟩
      · simp only [List.map_cons, HittableList.hit_force_loop, hstep, hw]
        exact hrun
      · rcases hres with ⟨hall, hb, hr⟩ | ⟨l1, x, l2, hl, hx, hxc, hbefore, hafter, hb, hr⟩
        · left
          refine ⟨?_, hb, hr⟩
          intro y hy hyh
          rcases List.mem_cons.mp hy with rfl | hy
          · rw [h2] at hyh; simp at hyh
          · exact hall y hy hyh
        · right
          refine ⟨s :: l1, x, l2, by rw [hl]; rfl, hx, hxc, ?_, hafter, hb, hr⟩
          intro y hy hyh
          rcases List.mem_cons.mp hy with rfl | hy
          · rw [h2] at hyh; simp at hyh
          · exact hbefore y hy hyh
    · rw [h1, hI] at hw
      simp only [Sphere.record_t, true_and] at hw
      by_cases htc : t < c
      · -- accepted: the window shrinks to `t`
        rw [if_pos htc] at hw
        have hI' : ∀ (s' : Sphere K) (t' : K),
            s'.record r t' (s.record r t temp0) = s'.record r t' temp0 := fun _ _ => rfl
        obtain ⟨b, rec', hrun, hres⟩ :=
          ih t (s.record r t temp0) true (s.record r t temp0) (le_trans htc.le hc) hI'
        refine ⟨b, rec', ?_, ?_⟩
        · simp only [List.map_cons, HittableList.hit_force_loop, hstep, hw]
          exact hrun
        · right
          rcases hres with ⟨hall, hb, hr⟩ | ⟨l1, x, l2, hl, hx, hxc, hbefore, hafter, hb, hr⟩
          · refine ⟨[], s, rest, rfl, by rw [h2], by rw [h2]; exact htc, by simp, ?_, hb, ?_⟩
            · intro y hy hyh
              rw [h2]
              exact hall y hy hyh
            · rw [hr, h2]
          · refine ⟨s :: l1, x, l2, by rw [hl]; rfl, hx, lt_trans hxc htc, ?_, hafter, hb, hr⟩
            intro y hy hyh
            rcases List.mem_cons.mp hy with rfl | hy
            · rw [h2]; exact hxc
            · exact hbefore y hy hyh
      · -- rejected: not closer than what was found
        rw [if_neg htc] at hw
        obtain ⟨b, rec', hrun, hres⟩ := ih c temp ha rec hc hI
        refine ⟨b, rec', ?_, ?_⟩
        · simp only [List.map_cons, HittableList.hit_force_loop, hstep, hw]
          exact hrun
        · rcases hres with ⟨hall, hb, hr⟩ | ⟨l1, x, l2, hl, hx, hxc, hbefore, hafter, hb, hr⟩
          · left
            refine ⟨?_, hb, hr⟩
            intro y hy hyh
            rcases List.mem_cons.mp hy with rfl | hy
            · rw [h2]; exact not_lt.mp htc
            · exact hall y hy hyh
          · right
            refine ⟨s :: l1, x, l2, by rw [hl]; rfl, hx, hxc, ?_, hafter, hb, hr⟩
            intro y hy hyh
            rcases List.mem_cons.mp hy with rfl | hy
            · rw [h2]; exact lt_of_lt_of_le hxc (not_lt.mp htc)
            · exact hbefore y hy hyh

/-- C1: `hit_force` returns the globally nearest hit.  For every list of `Sphere` entries
and every ray with a non-zero direction (and a square root that is non-negative on positive
arguments), `hit_force(r, tmin, tmax)` returns normally; it returns true if and only if some
entry's own `hit(r, tmin, tmax)` returns true; and then the returned record is the record
that entry `s` reports, where `s` is an entry whose reported `t` is least among all entries
that hit and strictly below that of every hitting entry before it in list order. -/
theorem HittableList.hit_force_nearest (sqrt : K → K) (hsqrt : ∀ x : K, 0 < x → 0 ≤ sqrt x)
    (spheres : List (Sphere K)) (root : Option (BVHnode K M)) (r : Ray K)
    (hd : r.direction ≠ Vec3.zero) (tmin tmax : K) (temp_rec rec : hit_record K M) :
    ∃ b rec',
      HittableList.hit_force ⟨spheres.map (Sphere.toHittable sqrt), root⟩ temp_rec r tmin tmax rec
        = some (b, rec') ∧
      (b = true ↔ ∃ s ∈ spheres, (s.hit sqrt r tmin tmax temp_rec).1 = true) ∧
      (b = true → ∃ l1 s l2, spheres = l1 ++ s :: l2 ∧
        (s.hit sqrt r tmin tmax temp_rec).1 = true ∧
        rec' = (s.hit sqrt r tmin tmax temp_rec).2 ∧
        (∀ x ∈ spheres, (x.hit sqrt r tmin tmax temp_rec).1 = true →
          rec'.t ≤ (x.hit sqrt r tmin tmax temp_rec).2.t) ∧
        (∀ x ∈ l1, (x.hit sqrt r tmin tmax temp_rec).1 = true →
          rec'.t < (x.hit sqrt r tmin tmax temp_rec).2.t)) := by
  obtain ⟨b, rec', hrun, hres⟩ :=
    HittableList.hit_force_loop_spheres sqrt r hd tmin tmax temp_rec spheres tmax temp_rec
      false rec (fun s _ => hsqrt (s.discriminant r)) le_rfl (fun _ _ => rfl)
  refine ⟨b, rec', hrun, ?_⟩
  rcases hres with ⟨hall, hb, _⟩ | ⟨l1, s, l2, hl, hs, _, hbefore, hafter, hb, hr⟩
  · subst hb
    refine ⟨?_, by simp⟩
    constructor
    · simp
    · rintro ⟨s, hs, hh⟩
      exact absurd (Sphere.hit_range sqrt s r tmin tmax temp_rec hh).2 (not_lt.mpr (hall s hs hh))
  · subst hb
    subst hr
    refine ⟨⟨fun _ => ⟨s, by rw [hl]; simp, hs⟩, fun _ => rfl⟩, fun _ => ?_⟩
    refine ⟨l1, s, l2, hl, hs, rfl, ?_, hbefore⟩
    intro x hx hxh
    rw [hl] at hx
    rcases List.mem_append.mp hx with hx | hx
    · exact (hbefore x hx hxh).le
    · rcases List.mem_cons.mp hx with rfl | hx
      · exact le_rfl
      · exact hafter x hx hxh

/-- C1 at a concrete input: a far sphere listed before a near one on the same ray. -/
theorem HittableList.hit_force_nearest_witness :
    ∃ b rec',
      HittableList.hit_force
        ⟨[(⟨⟨0, 0, -5⟩, 1⟩ : Sphere ℚ), ⟨⟨0, 0, -2⟩, 1⟩].map (Sphere.toHittable Rat.sqrt), none⟩
        (⟨⟨0, 0, 0⟩, ⟨0, 0, 0⟩, 0, 0, 0, none⟩ : hit_record ℚ Unit)
        ⟨⟨0, 0, 0⟩, ⟨0, 0, -1⟩, 0⟩ 0 100 ⟨⟨0, 0, 0⟩, ⟨0, 0, 0⟩, 0, 0, 0, none⟩
        = some (b, rec') ∧
      (b = true ↔ ∃ s ∈ [(⟨⟨0, 0, -5⟩, 1⟩ : Sphere ℚ), ⟨⟨0, 0, -2⟩, 1⟩],
        (s.hit Rat.sqrt ⟨⟨0, 0, 0⟩, ⟨0, 0, -1⟩, 0⟩ 0 100
          (⟨⟨0, 0, 0⟩, ⟨0, 0, 0⟩, 0, 0, 0, none⟩ : hit_record ℚ Unit)).1 = true) :=
  have h := HittableList.hit_force_nearest Rat.sqrt (fun x _ => Rat.sqrt_nonneg x)
    [(⟨⟨0, 0, -5⟩, 1⟩ : Sphere ℚ), ⟨⟨0, 0, -2⟩, 1⟩] none ⟨⟨0, 0, 0⟩, ⟨0, 0, -1⟩, 0⟩
    (by decide!) 0 100 (⟨⟨0, 0, 0⟩, ⟨0, 0, 0⟩, 0, 0, 0, none⟩ : hit_record ℚ Unit)
    ⟨⟨0, 0, 0⟩, ⟨0, 0, 0⟩, 0, 0, 0, none⟩
  h.imp fun _ hb => hb.imp fun _ hr => ⟨hr.1, hr.2.1⟩

/-- C1, evaluated: on that input `hit_force` returns the near sphere, `t = 1`. -/
theorem HittableList.hit_force_nearest_eval :
    HittableList.hit_force
        ⟨[(⟨⟨0, 0, -5⟩, 1⟩ : Sphere ℚ), ⟨⟨0, 0, -2⟩, 1⟩].map (Sphere.toHittable Rat.sqrt), none⟩
        (⟨⟨0, 0, 0⟩, ⟨0, 0, 0⟩, 0, 0, 0, none⟩ : hit_record ℚ Unit)
        ⟨⟨0, 0, 0⟩, ⟨0, 0, -1⟩, 0⟩ 0 100 ⟨⟨0, 0, 0⟩, ⟨0, 0, 0⟩, 0, 0, 0, none⟩
      = some (true, ⟨⟨0, 0, -1⟩, ⟨0, 0, 1⟩, 1, 0, 0, none⟩) := by
  decide!

/-- C7: the two-sphere world.  For the list holding the sphere of radius 1/2 around
`(0, 0, -1)` and the ground sphere of radius 100 around `(0, -100, -1)`, in either insertion
order, the ray from the origin along `(0, 0, -1)` queried over `(eps, infinity)` reports,
through `hit` and through `hit_force` alike, a hit with `t = 1/2`, hit point `(0, 0, -1/2)` and
normal `(0, 0, 1)`: the small sphere (the ray only grazes the ground sphere, discriminant 0).
Needs `sqrt (1/4) = 1/2` and `eps < 1/2 < infinity`. -/
theorem HittableList.two_sphere_scenario (sqrt : K → K) (eps infinity time : K)
    (hs : sqrt (1 / 4) = 1 / 2) (heps : eps < 1 / 2) (hinf : 1 / 2 < infinity)
    (temp_rec rec : hit_record K M) :
    ∀ world ∈ [((HittableList.empty.add (Sphere.toHittable sqrt ⟨⟨0, 0, -1⟩, 1 / 2⟩)).add
                  (Sphere.toHittable sqrt ⟨⟨0, -100, -1⟩, 100⟩) : HittableList K M),
               ((HittableList.empty.add (Sphere.toHittable sqrt ⟨⟨0, -100, -1⟩, 100⟩)).add
                  (Sphere.toHittable sqrt ⟨⟨0, 0, -1⟩, 1 / 2⟩) : HittableList K M)],
      world.hit temp_rec ⟨⟨0, 0, 0⟩, ⟨0, 0, -1⟩, time⟩ eps infinity rec
        = some (true, { temp_rec with t := 1 / 2, p := ⟨0, 0, -1 / 2⟩, norm := ⟨0, 0, 1⟩ }) ∧
      world.hit_force temp_rec ⟨⟨0, 0, 0⟩, ⟨0, 0, -1⟩, time⟩ eps infinity rec
        = some (true, { temp_rec with t := 1 / 2, p := ⟨0, 0, -1 / 2⟩, norm := ⟨0, 0, 1⟩ }) := by
  have hDs : Sphere.discriminant (⟨⟨0, 0, -1⟩, 1 / 2⟩ : Sphere K)
      ⟨⟨0, 0, 0⟩, ⟨0, 0, -1⟩, time⟩ = 1 / 4 := by
    simp only [Sphere.discriminant, Vec3.dot, Vec3.sub, Vec3.length_sqr]
    norm_num
  have hDg : Sphere.discriminant (⟨⟨0, -100, -1⟩, 100⟩ : Sphere K)
      ⟨⟨0, 0, 0⟩, ⟨0, 0, -1⟩, time⟩ = 0 := by
    simp only [Sphere.discriminant, Vec3.dot, Vec3.sub, Vec3.length_sqr]
    norm_num
  have hroot : Sphere.root_neg sqrt (⟨⟨0, 0, -1⟩, 1 / 2⟩ : Sphere K)
      ⟨⟨0, 0, 0⟩, ⟨0, 0, -1⟩, time⟩ = 1 / 2 := by
    rw [Sphere.root_neg, hDs, hs]
    simp only [Vec3.dot, Vec3.sub, Vec3.length_sqr]
    norm_num
  have hrec : ∀ q : hit_record K M, Sphere.record (⟨⟨0, 0, -1⟩, 1 / 2⟩ : Sphere K)
      ⟨⟨0, 0, 0⟩, ⟨0, 0, -1⟩, time⟩ (1 / 2) q
        = { q with t := 1 / 2, p := ⟨0, 0, -1 / 2⟩, norm := ⟨0, 0, 1⟩ } := by
    intro q
    simp only [Sphere.record, Ray.at_, Vec3.add, Vec3.smul, Vec3.sub, Vec3.sdiv]
    norm_num
  have hsmall : ∀ (tmax : K) (q : hit_record K M), 1 / 2 < tmax →
      Sphere.hit sqrt (⟨⟨0, 0, -1⟩, 1 / 2⟩ : Sphere K) ⟨⟨0, 0, 0⟩, ⟨0, 0, -1⟩, time⟩ eps tmax q
        = (true, { q with t := 1 / 2, p := ⟨0, 0, -1 / 2⟩, norm := ⟨0, 0, 1⟩ }) := by
    intro tmax q ht
    rw [Sphere.hit_eq, hDs, if_pos (by norm_num), hroot, if_pos ⟨ht, heps⟩, hrec]
  have hground : ∀ (tmax : K) (q : hit_record K M),
      Sphere.hit sqrt (⟨⟨0, -100, -1⟩, 100⟩ : Sphere K) ⟨⟨0, 0, 0⟩, ⟨0, 0, -1⟩, time⟩ eps tmax q
        = (false, q) := by
    intro tmax q
    exact Sphere.hit_of_discriminant_nonpos sqrt _ _ _ _ _ hDg.le
  intro world hw
  simp only [List.mem_cons, List.mem_singleton, List.not_mem_nil, or_false] at hw
  rcases hw with rfl | rfl
  · have hlen : (2 : Nat) ≤ HittableList.threshold := by decide
    simp only [HittableList.hit, HittableList.hit_force, HittableList.hit_force_loop,
      HittableList.add, HittableList.empty, Sphere.toHittable, List.nil_append,
      List.cons_append, List.length_cons, List.length_nil, hsmall _ _ hinf, hground,
      zero_add, Nat.reduceAdd, hlen, if_true, and_self]
  · have hlen : (2 : Nat) ≤ HittableList.threshold := by decide
    simp only [HittableList.hit, HittableList.hit_force, HittableList.hit_force_loop,
      HittableList.add, HittableList.empty, Sphere.toHittable, List.nil_append,
      List.cons_append, List.length_cons, List.length_nil, hsmall _ _ hinf, hground,
      zero_add, Nat.reduceAdd, hlen, if_true, and_self]

/-- C7 at a concrete input: `K := ℚ`, `sqrt := Rat.sqrt`, `eps = 1/1000`, `infinity = 10^9`,
the small sphere added first. -/
theorem HittableList.two_sphere_scenario_witness :
    HittableList.hit
        ((HittableList.empty.add (Sphere.toHittable Rat.sqrt ⟨⟨0, 0, -1⟩, 1 / 2⟩)).add
          (Sphere.toHittable Rat.sqrt ⟨⟨0, -100, -1⟩, 100⟩) : HittableList ℚ Unit)
        ⟨⟨0, 0, 0⟩, ⟨0, 0, 0⟩, 0, 0, 0, none⟩ ⟨⟨0, 0, 0⟩, ⟨0, 0, -1⟩, 0⟩ (1 / 1000) 1000000000
        ⟨⟨0, 0, 0⟩, ⟨0, 0, 0⟩, 0, 0, 0, none⟩
      = some (true, ⟨⟨0, 0, -1 / 2⟩, ⟨0, 0, 1⟩, 1 / 2, 0, 0, none⟩) :=
  (HittableList.two_sphere_scenario Rat.sqrt (1 / 1000) 1000000000 0 (by decide!)
    (by norm_num) (by norm_num) ⟨⟨0, 0, 0⟩, ⟨0, 0, 0⟩, 0, 0, 0, none⟩
    ⟨⟨0, 0, 0⟩, ⟨0, 0, 0⟩, 0, 0, 0, none⟩ _ (List.mem_cons_self _ _)).1

/-- C3, the claim fails: a list of 11 spheres on which `build()` was never called (empty
root).  `hit_force` returns the hit at `t = 1`; `hit` does not delegate to it but dereferences
the empty root. -/
theorem HittableList.hit_unbuilt_counterexample :
    HittableList.hit_force
        ⟨List.replicate 11 (Sphere.toHittable Rat.sqrt ⟨⟨0, 0, -2⟩, 1⟩), none⟩
        (⟨⟨0, 0, 0⟩, ⟨0, 0, 0⟩, 0, 0, 0, none⟩ : hit_record ℚ Unit)
        ⟨⟨0, 0, 0⟩, ⟨0, 0, -1⟩, 0⟩ 0 100 ⟨⟨0, 0, 0⟩, ⟨0, 0, 0⟩, 0, 0, 0, none⟩
      = some (true, ⟨⟨0, 0, -1⟩, ⟨0, 0, 1⟩, 1, 0, 0, none⟩) ∧
    HittableList.hit
        ⟨List.replicate 11 (Sphere.toHittable Rat.sqrt ⟨⟨0, 0, -2⟩, 1⟩), none⟩
        (⟨⟨0, 0, 0⟩, ⟨0, 0, 0⟩, 0, 0, 0, none⟩ : hit_record ℚ Unit)
        ⟨⟨0, 0, 0⟩, ⟨0, 0, -1⟩, 0⟩ 0 100 ⟨⟨0, 0, 0⟩, ⟨0, 0, 0⟩, 0, 0, 0, none⟩
      = none := by
  decide!

/-- C3 as amended: `hit` chooses by the number of entries, not by whether a BVH was built.
With at most `threshold = 10` entries it returns exactly what `hit_force` returns, whatever
the root holds (so the root is not read); with more than 10 entries it forwards to
`root->hit`, which is undefined when the root is empty. -/
theorem HittableList.hit_dispatch (l : HittableList K M) (temp_rec : hit_record K M) (r : Ray K)
    (tmin tmax : K) (rec : hit_record K M) :
    (l.objects.length ≤ 10 → ∀ root' : Option (BVHnode K M),
      HittableList.hit ⟨l.objects, root'⟩ temp_rec r tmin tmax rec
        = l.hit_force temp_rec r tmin tmax rec) ∧
    (10 < l.objects.length → ∀ root : BVHnode K M, l.root = some root →
      l.hit temp_rec r tmin tmax rec = root.hit r tmin tmax rec) ∧
    (10 < l.objects.length → l.root = none → l.hit temp_rec r tmin tmax rec = none) := by
  refine ⟨?_, ?_, ?_⟩
  · intro h root'
    simp only [HittableList.hit, HittableList.threshold, h, if_true, HittableList.hit_force]
  · intro h root hroot
    simp only [HittableList.hit, HittableList.threshold, not_le.mpr h, if_false, hroot]
  · intro h hroot
    simp only [HittableList.hit, HittableList.threshold, not_le.mpr h, if_false, hroot]

/-! ### `HittableList::bounding_box` -/

/-- The loop of `bounding_box` after the first entry (`first_box` cleared): it fails exactly
when some remaining entry has no box, and otherwise folds `surrounding_box` over the
remaining boxes. -/
theorem HittableList.bounding_box_loop_fold (t0 t1 : K) (temp0 : AABB K) :
    ∀ (l : List (Hittable K M)) (temp out : AABB K), (∀ e ∈ l, e.BoxIsOutput t0 t1) →
      ((HittableList.bounding_box_loop t0 t1 l temp false out).1 = false ↔
        ∃ e ∈ l, (e.bounding_box t0 t1 temp0).1 = false) ∧
      ((HittableList.bounding_box_loop t0 t1 l temp false out).1 = true →
        (HittableList.bounding_box_loop t0 t1 l temp false out).2
          = l.foldl (fun acc o => surrounding_box acc (o.bounding_box t0 t1 temp0).2) out) := by
  intro l
  induction l with
  | nil =>
    intro temp out _
    simp [HittableList.bounding_box_loop]
  | cons e rest ih =>
    intro temp out hpure
    have he := hpure e (List.mem_cons_self _ _)
    have hrest : ∀ x ∈ rest, x.BoxIsOutput t0 t1 := fun x hx => hpure x (List.mem_cons_of_mem _ hx)
    have hflag := (he temp temp0).1
    have hbox := (he temp temp0).2
    rcases hcall : e.bounding_box t0 t1 temp with ⟨b, box⟩
    rw [hcall] at hflag hbox
    cases b with
    | false =>
      simp only [HittableList.bounding_box_loop, hcall]
      refine ⟨⟨fun _ => ⟨e, List.mem_cons_self _ _, hflag.symm⟩, fun _ => trivial⟩, ?_⟩
      intro h
      simp at h
    | true =>
      have hb2 : box = (e.bounding_box t0 t1 temp0).2 := hbox rfl
      simp only [HittableList.bounding_box_loop, hcall, Bool.false_eq_true, if_false]
      obtain ⟨ih1, ih2⟩ := ih box (surrounding_box out box) hrest
      refine ⟨?_, ?_⟩
      · rw [ih1]
        constructor
        · rintro ⟨x, hx, hxf⟩
          exact ⟨x, List.mem_cons_of_mem _ hx, hxf⟩
        · rintro ⟨x, hx, hxf⟩
          rcases List.mem_cons.mp hx with rfl | hx
          · rw [← hflag] at hxf; simp at hxf
          · exact ⟨x, hx, hxf⟩
      · intro h
        rw [ih2 h, List.foldl_cons, hb2]

/-- C10: `HittableList::bounding_box`, for entries that use their reference parameter as an
output only.  It returns false if and only if the list is empty or some entry's
`bounding_box` returns false; otherwise it returns true and `output_box` is the left fold of
`surrounding_box` over the entries' boxes in list order, starting from the first entry's box.
Flag and box do not depend on the initial content of `output_box` (nor of `temp_box`). -/
theorem HittableList.bounding_box_fold (l : HittableList K M) (t0 t1 : K)
    (hpure : ∀ e ∈ l.objects, e.BoxIsOutput t0 t1) (temp_box output_box : AABB K) :
    ((l.bounding_box temp_box t0 t1 output_box).1 = false ↔
      l.objects = [] ∨ ∃ e ∈ l.objects, (e.bounding_box t0 t1 temp_box).1 = false) ∧
    ((l.bounding_box temp_box t0 t1 output_box).1 = true →
      ∃ e rest, l.objects = e :: rest ∧
        (l.bounding_box temp_box t0 t1 output_box).2
          = rest.foldl (fun acc o => surrounding_box acc (o.bounding_box t0 t1 temp_box).2)
              (e.bounding_box t0 t1 temp_box).2) ∧
    (∀ temp_box' output_box' : AABB K,
      (l.bounding_box temp_box' t0 t1 output_box').1
        = (l.bounding_box temp_box t0 t1 output_box).1 ∧
      ((l.bounding_box temp_box t0 t1 output_box).1 = true →
        (l.bounding_box temp_box' t0 t1 output_box').2
          = (l.bounding_box temp_box t0 t1 output_box).2)) := by
  have key : ∀ temp out : AABB K,
      ((l.bounding_box temp t0 t1 out).1 = false ↔
        l.objects = [] ∨ ∃ e ∈ l.objects, (e.bounding_box t0 t1 temp_box).1 = false) ∧
      ((l.bounding_box temp t0 t1 out).1 = true →
        ∃ e rest, l.objects = e :: rest ∧
          (l.bounding_box temp t0 t1 out).2
            = rest.foldl (fun acc o => surrounding_box acc (o.bounding_box t0 t1 temp_box).2)
                (e.bounding_box t0 t1 temp_box).2) := by
    intro temp out
    rcases hl : l.objects with _ | ⟨e, rest⟩
    · simp [HittableList.bounding_box, hl]
    · rw [hl] at hpure
      have he := hpure e (List.mem_cons_self _ _)
      have hrest : ∀ x ∈ rest, x.BoxIsOutput t0 t1 :=
        fun x hx => hpure x (List.mem_cons_of_mem _ hx)
      have hflag := (he temp temp_box).1
      have hbox := (he temp temp_box).2
      rcases hcall : e.bounding_box t0 t1 temp with ⟨b, box⟩
      rw [hcall] at hflag hbox
      cases b with
      | false =>
        simp only [HittableList.bounding_box, hl, List.isEmpty_cons, Bool.false_eq_true,
          if_false, HittableList.bounding_box_loop, hcall]
        refine ⟨⟨fun _ => Or.inr ⟨e, List.mem_cons_self _ _, hflag.symm⟩, fun _ => trivial⟩, ?_⟩
        intro h
        simp at h
      | true =>
        have hb2 : box = (e.bounding_box t0 t1 temp_box).2 := hbox rfl
        simp only [HittableList.bounding_box, hl, List.isEmpty_cons, Bool.false_eq_true,
          if_false, HittableList.bounding_box_loop, hcall, if_true]
        obtain ⟨ih1, ih2⟩ := HittableList.bounding_box_loop_fold t0 t1 temp_box rest box box hrest
        refine ⟨?_, ?_⟩
        · rw [ih1]
          constructor
          · rintro ⟨x, hx, hxf⟩
            exact Or.inr ⟨x, List.mem_cons_of_mem _ hx, hxf⟩
          · rintro (h | ⟨x, hx, hxf⟩)
            · simp at h
            · rcases List.mem_cons.mp hx with rfl | hx
              · rw [← hflag] at hxf; simp at hxf
              · exact ⟨x, hx, hxf⟩
        · intro h
          exact ⟨e, rest, rfl, by rw [ih2 h, hb2]⟩
  obtain ⟨k1, k2⟩ := key temp_box output_box
  refine ⟨k1, k2, ?_⟩
  intro temp' out'
  obtain ⟨k1', k2'⟩ := key temp' out'
  have hflag : (l.bounding_box temp' t0 t1 out').1 = (l.bounding_box temp_box t0 t1 output_box).1 := by
    cases h : (l.bounding_box temp_box t0 t1 output_box).1
    · exact k1'.mpr (k1.mp h)
    · cases h' : (l.bounding_box temp' t0 t1 out').1
      · rw [k1.mpr (k1'.mp h')] at h
        simp at h
      · rfl
  refine ⟨hflag, ?_⟩
  intro h
  obtain ⟨e, rest, hl, hres⟩ := k2 h
  obtain ⟨e', rest', hl', hres'⟩ := k2' (hflag.trans h)
  rw [hl] at hl'
  cases hl'
  rw [hres, hres']

/-- A sphere's `bounding_box` never reads its reference parameter. -/
theorem Sphere.toHittable_boxIsOutput (sqrt : K → K) (s : Sphere K) (t0 t1 : K) :
    (Sphere.toHittable sqrt s : Hittable K M).BoxIsOutput t0 t1 :=
  fun _ _ => ⟨rfl, fun _ => rfl⟩

/-- C10 at a concrete input: the two spheres of the scenario of C7. -/
theorem HittableList.bounding_box_fold_witness :
    (HittableList.bounding_box
        (⟨[Sphere.toHittable Rat.sqrt ⟨⟨0, 0, -1⟩, 1 / 2⟩,
           Sphere.toHittable Rat.sqrt ⟨⟨0, -100, -1⟩, 100⟩], none⟩ : HittableList ℚ Unit)
        ⟨⟨0, 0, 0⟩, ⟨0, 0, 0⟩⟩ 0 1 ⟨⟨7, 7, 7⟩, ⟨9, 9, 9⟩⟩).1 = false ↔
      ([Sphere.toHittable Rat.sqrt ⟨⟨0, 0, -1⟩, 1 / 2⟩,
        Sphere.toHittable Rat.sqrt ⟨⟨0, -100, -1⟩, 100⟩] : List (Hittable ℚ Unit)) = [] ∨
      ∃ e ∈ ([Sphere.toHittable Rat.sqrt ⟨⟨0, 0, -1⟩, 1 / 2⟩,
        Sphere.toHittable Rat.sqrt ⟨⟨0, -100, -1⟩, 100⟩] : List (Hittable ℚ Unit)),
        (e.bounding_box 0 1 ⟨⟨0, 0, 0⟩, ⟨0, 0, 0⟩⟩).1 = false :=
  (HittableList.bounding_box_fold
    (⟨[Sphere.toHittable Rat.sqrt ⟨⟨0, 0, -1⟩, 1 / 2⟩,
       Sphere.toHittable Rat.sqrt ⟨⟨0, -100, -1⟩, 100⟩], none⟩ : HittableList ℚ Unit) 0 1
    (by
      intro e he
      simp only [List.mem_cons, List.mem_singleton, List.not_mem_nil, or_false] at he
      rcases he with rfl | rfl <;> exact Sphere.toHittable_boxIsOutput _ _ _ _)
    ⟨⟨0, 0, 0⟩, ⟨0, 0, 0⟩⟩ ⟨⟨7, 7, 7⟩, ⟨9, 9, 9⟩⟩).1

/-- C10, evaluated: the box of those two spheres; an empty list has none and leaves
`output_box` as it was. -/
theorem HittableList.bounding_box_fold_eval :
    HittableList.bounding_box
        (⟨[Sphere.toHittable Rat.sqrt ⟨⟨0, 0, -1⟩, 1 / 2⟩,
           Sphere.toHittable Rat.sqrt ⟨⟨0, -100, -1⟩, 100⟩], none⟩ : HittableList ℚ Unit)
        ⟨⟨0, 0, 0⟩, ⟨0, 0, 0⟩⟩ 0 1 ⟨⟨7, 7, 7⟩, ⟨9, 9, 9⟩⟩
      = (true, ⟨⟨-100, -200, -101⟩, ⟨100, 1 / 2, 99⟩⟩) ∧
    HittableList.bounding_box (HittableList.empty : HittableList ℚ Unit)
        ⟨⟨0, 0, 0⟩, ⟨0, 0, 0⟩⟩ 0 1 ⟨⟨7, 7, 7⟩, ⟨9, 9, 9⟩⟩
      = (false, ⟨⟨7, 7, 7⟩, ⟨9, 9, 9⟩⟩) := by
  decide!

end ListTheorems

/-! ## The BVH path of `HittableList::hit` -/

section BVHTheorems

variable {K M : Type} [LinearOrderedField K]

end BVHTheorems

/-! ## Hit records of `Sphere::hit` -/

section HitRecordTheorems

variable {K M : Type} [LinearOrderedField K]

end HitRecordTheorems

/-! ## The caller's record in `HittableList::hit_force` -/

section FrameTheorems

variable {K M : Type}

/-- The loop of `hit_force` never reads the caller's record: run from two different records
it fails alike or returns the same flag, and either both runs hand their record back
untouched (no entry was hit) or both return the same record with flag true. -/
theorem HittableList.hit_force_loop_frame (r : Ray K) (tmin : K) :
    ∀ (l : List (Hittable K M)) (c : K) (temp : hit_record K M) (ha : Bool)
      (rec1 rec2 : hit_record K M),
      (HittableList.hit_force_loop r tmin l c temp ha rec1 = none ∧
        HittableList.hit_force_loop r tmin l c temp ha rec2 = none) ∨
      ∃ b r1 r2, HittableList.hit_force_loop r tmin l c temp ha rec1 = some (b, r1) ∧
        HittableList.hit_force_loop r tmin l c temp ha rec2 = some (b, r2) ∧
        ((b = ha ∧ r1 = rec1 ∧ r2 = rec2) ∨ (b = true ∧ r1 = r2)) := by
  intro l
  induction l with
  | nil =>
    intro c temp ha rec1 rec2
    exact Or.inr ⟨ha, rec1, rec2, rfl, rfl, Or.inl ⟨rfl, rfl, rfl⟩⟩
  | cons object rest ih =>
    intro c temp ha rec1 rec2
    rcases hcall : object.hit r tmin c temp with _ | ⟨b, temp1⟩
    · left
      simp only [HittableList.hit_force_loop, hcall, and_self]
    · cases b with
      | true =>
        rcases ih temp1.t temp1 true temp1 temp1 with ⟨h1, _⟩ | ⟨b, r1, r2, h1, h2, hres⟩
        · left
          simp only [HittableList.hit_force_loop, hcall, h1, and_self]
        · right
          rw [h1] at h2
          simp only [Option.some.injEq, Prod.mk.injEq, true_and] at h2
          subst h2
          have hb : b = true := by
            rcases hres with ⟨hb, _⟩ | ⟨hb, _⟩ <;> exact hb
          refine ⟨b, r1, r1, ?_, ?_, Or.inr ⟨hb, rfl⟩⟩
          · simp only [HittableList.hit_force_loop, hcall, h1]
          · simp only [HittableList.hit_force_loop, hcall, h1]
      | false =>
        rcases ih c temp1 ha rec1 rec2 with ⟨h1, h2⟩ | ⟨b, r1, r2, h1, h2, hres⟩
        · left
          simp only [HittableList.hit_force_loop, hcall, h1, h2, and_self]
        · right
          refine ⟨b, r1, r2, ?_, ?_, hres⟩
          · simp only [HittableList.hit_force_loop, hcall, h1]
          · simp only [HittableList.hit_force_loop, hcall, h2]

/-- C20: `hit_force` writes the caller's record only on success.  For every list of
entries, ray and `(tmin, tmax)`: when `hit_force` returns false the caller's `rec` is exactly
as it was; and started from any other record `rec'` the call behaves alike (it fails alike,
or returns the same boolean), and when it returns true it returns the same record, so on
success neither the boolean nor the record depends on the initial content of `rec`. -/
theorem HittableList.hit_force_frame (l : HittableList K M) (temp_rec : hit_record K M)
    (r : Ray K) (tmin tmax : K) (rec rec' : hit_record K M) :
    (∀ out, l.hit_force temp_rec r tmin tmax rec = some (false, out) → out = rec) ∧
    (l.hit_force temp_rec r tmin tmax rec = none ↔
      l.hit_force temp_rec r tmin tmax rec' = none) ∧
    (∀ b out, l.hit_force temp_rec r tmin tmax rec = some (b, out) →
      ∃ out', l.hit_force temp_rec r tmin tmax rec' = some (b, out') ∧
        (b = true → out' = out)) := by
  unfold HittableList.hit_force
  rcases HittableList.hit_force_loop_frame r tmin l.objects tmax temp_rec false rec rec' with
    ⟨h1, h2⟩ | ⟨b, r1, r2, h1, h2, hres⟩
  · rw [h1, h2]
    simp
  · rw [h1, h2]
    refine ⟨?_, by simp, ?_⟩
    · intro out hout
      simp only [Option.some.injEq, Prod.mk.injEq] at hout
      rcases hres with ⟨_, hr1, _⟩ | ⟨hb, _⟩
      · rw [← hout.2, hr1]
      · rw [hb] at hout; simp at hout
    · intro b' out hout
      simp only [Option.some.injEq, Prod.mk.injEq] at hout
      obtain ⟨hb', hout'⟩ := hout
      subst hb' hout'
      refine ⟨r2, rfl, ?_⟩
      intro hb
      rcases hres with ⟨hb0, _⟩ | ⟨_, h12⟩
      · rw [hb0] at hb; simp at hb
      · exact h12.symm

/-- C20, evaluated: a miss hands the caller's record back; a hit returns the same record
from two different initial records. -/
theorem HittableList.hit_force_frame_eval :
    HittableList.hit_force
        (⟨[Sphere.toHittable Rat.sqrt ⟨⟨0, 0, -2⟩, 1⟩], none⟩ : HittableList ℚ Unit) zero_rec
        ⟨⟨0, 0, 0⟩, ⟨0, 0, 1⟩, 0⟩ 0 100 ⟨⟨7, 7, 7⟩, ⟨8, 8, 8⟩, 9, 1, 2, none⟩
      = some (false, ⟨⟨7, 7, 7⟩, ⟨8, 8, 8⟩, 9, 1, 2, none⟩) ∧
    HittableList.hit_force
        (⟨[Sphere.toHittable Rat.sqrt ⟨⟨0, 0, -2⟩, 1⟩], none⟩ : HittableList ℚ Unit) zero_rec
        down_z 0 100 ⟨⟨7, 7, 7⟩, ⟨8, 8, 8⟩, 9, 1, 2, none⟩
      = some (true, ⟨⟨0, 0, -1⟩, ⟨0, 0, 1⟩, 1, 0, 0, none⟩) ∧
    HittableList.hit_force
        (⟨[Sphere.toHittable Rat.sqrt ⟨⟨0, 0, -2⟩, 1⟩], none⟩ : HittableList ℚ Unit) zero_rec
        down_z 0 100 zero_rec
      = some (true, ⟨⟨0, 0, -1⟩, ⟨0, 0, 1⟩, 1, 0, 0, none⟩) := by
  decide!

end FrameTheorems

/-! ## `HittableList::build` and `HittableList::add` -/

section BuildTheorems

variable {K M : Type} [LinearOrderedField K]

/-- C11: `HittableList::build`.  Up to `threshold = 10` entries it is a no-op: the list is
returned as it was, entries and root alike.  With more than 10 entries the root becomes
exactly what the constructor `BVHnode(objects, 0, objects.size(), eps, infinity)` yields for
the whole index range of the current entries (and `build` fails only if that constructor
does); the entries are the same before and after in every case. -/
theorem HittableList.build_spec (axis : Nat → List (Hittable K M) → Fin 3) (temp_box : AABB K)
    (eps infinity : K) (l : HittableList K M) :
    (l.objects.length ≤ 10 → HittableList.build axis temp_box eps infinity l = some l) ∧
    (10 < l.objects.length →
      HittableList.build axis temp_box eps infinity l
        = (BVHnode.build axis temp_box l.objects 0 l.objects.length eps infinity).map
            (fun root => ⟨l.objects, some root⟩)) ∧
    (∀ built, HittableList.build axis temp_box eps infinity l = some built →
      built.objects = l.objects) := by
  refine ⟨?_, ?_, ?_⟩
  · intro h
    have h' : l.objects.length ≤ HittableList.threshold := h
    simp only [HittableList.build, h', if_true]
  · intro h
    have h' : ¬ l.objects.length ≤ HittableList.threshold := not_le.mpr h
    simp only [HittableList.build, h', if_false]
    cases BVHnode.build axis temp_box l.objects 0 l.objects.length eps infinity <;> rfl
  · intro built hb
    unfold HittableList.build at hb
    split_ifs at hb
    · simp only [Option.some.injEq] at hb
      rw [← hb]
    · split at hb
      · simp at hb
      · simp only [Option.some.injEq] at hb
        rw [← hb]

/-- C11, evaluated: on the eleven spheres of `tie_world` the root is set and the entries
are kept; on the two-sphere world nothing is built. -/
theorem HittableList.build_spec_eval :
    (HittableList.build (fun _ _ => 0) ⟨⟨0, 0, 0⟩, ⟨0, 0, 0⟩⟩ (1 / 1000) 1000000 tie_world).map
        (fun b => (b.root.isSome, b.objects.length)) = some (true, 11) ∧
    (HittableList.build (fun _ _ => 0) ⟨⟨0, 0, 0⟩, ⟨0, 0, 0⟩⟩ (1 / 1000) 1000000
        ((HittableList.empty.add (Sphere.toHittable Rat.sqrt ⟨⟨0, 0, -1⟩, 1 / 2⟩)).add
          (Sphere.toHittable Rat.sqrt ⟨⟨0, -100, -1⟩, 100⟩) : HittableList ℚ Unit)).map
        (fun b => (b.root.isSome, b.objects.length)) = some (false, 2) := by
  decide!

/-- C12: `HittableList::add` appends the entity as the last entry and touches nothing else:
the earlier entries keep their positions and the stored root is the same object as before.
So after `build()` and a later `add()` the root is still the one the constructor returned for
the entries present at the `build()` call; only a further `build()` replaces it, by the
constructor's result for the enlarged list. -/
theorem HittableList.add_spec (axis : Nat → List (Hittable K M) → Fin 3) (temp_box : AABB K)
    (eps infinity : K) (l : HittableList K M) (object : Hittable K M) :
    (l.add object).objects = l.objects ++ [object] ∧
    (l.add object).root = l.root ∧
    (∀ i, i < l.objects.length → (l.add object).objects[i]? = l.objects[i]?) ∧
    (l.add object).objects[l.objects.length]? = some object ∧
    (∀ built, HittableList.build axis temp_box eps infinity l = some built →
      (built.add object).root = built.root ∧
      (10 < l.objects.length →
        (built.add object).root
          = BVHnode.build axis temp_box l.objects 0 l.objects.length eps infinity) ∧
      (10 < l.objects.length →
        HittableList.build axis temp_box eps infinity (built.add object)
          = (BVHnode.build axis temp_box (l.objects ++ [object]) 0 (l.objects.length + 1)
              eps infinity).map (fun root => ⟨l.objects ++ [object], some root⟩))) := by
  refine ⟨rfl, rfl, ?_, ?_, ?_⟩
  · intro i hi
    simp only [HittableList.add]
    exact List.getElem?_append_left hi
  · simp [HittableList.add]
  · intro built hb
    refine ⟨rfl, ?_, ?_⟩
    · intro h
      have h' : ¬ l.objects.length ≤ HittableList.threshold := not_le.mpr h
      simp only [HittableList.build, h', if_false] at hb
      split at hb
      · simp at hb
      · rename_i root hroot
        simp only [Option.some.injEq] at hb
        rw [← hb, hroot]
        rfl
    · intro h
      have h' : ¬ l.objects.length ≤ HittableList.threshold := not_le.mpr h
      simp only [HittableList.build, h', if_false] at hb
      split at hb
      · simp at hb
      · simp only [Option.some.injEq] at hb
        subst hb
        have h'' : ¬ l.objects.length + 1 ≤ HittableList.threshold := by
          simp only [HittableList.threshold]
          omega
        simp only [HittableList.build, HittableList.add, List.length_append,
          List.length_singleton, h'', if_false]
        cases BVHnode.build axis temp_box (l.objects ++ [object]) 0 (l.objects.length + 1)
          eps infinity <;> rfl

end BuildTheorems

/-! ## The integrators -/

section IntegratorTheorems

variable {K M G : Type} [LinearOrderedField K]

/-- C8: with a negative `depth` (in particular `depth = -1`) both integrators return the
zero color, for every ray, background and world.  The world is not queried: the equation
holds for every `world`, also for one whose `hit` is undefined on every query. -/
theorem ray_color_negative_depth (unit_vector : Vec3 K → Vec3 K) (eps infinity : K)
    (random_double : K → K → G → K × G) (random_unit_vector : G → Vec3 K × G)
    (material : M → Material K M G) (rec0 : Int → hit_record K M) (background : Color K)
    (world : Hittable K M) (r : Ray K) (depth : Int) (g : G) (hdepth : depth < 0) :
    Main1.ray_color unit_vector eps infinity random_double material rec0 background world r
        depth g
      = some (⟨0, 0, 0⟩, g) ∧
    Main5.ray_color unit_vector eps infinity random_unit_vector rec0 world r depth g
      = some (⟨0, 0, 0⟩, g) := by
  constructor
  · rw [Main1.ray_color, if_pos hdepth]; rfl
  · rw [Main5.ray_color, if_pos hdepth]; rfl

/-- C8 at `depth = -1`, with a world whose `hit` is undefined on every query. -/
theorem ray_color_negative_depth_witness :
    Main1.ray_color (Vec3.unit_vector Rat.sqrt) (1 / 1000) 1000000000
        (fun lo _ (g : Unit) => (lo, g))
        (fun _ : Unit => ⟨fun _ _ _ _ _ => ⟨0, 0, 0⟩, fun _ _ g => (none, g), fun _ _ _ => 0⟩)
        (fun _ => ⟨⟨0, 0, 0⟩, ⟨0, 0, 0⟩, 0, 0, 0, none⟩) ⟨1, 1, 1⟩
        ⟨fun _ _ _ _ => none, fun _ _ b => (false, b)⟩ ⟨⟨0, 0, 0⟩, ⟨0, 0, -1⟩, 0⟩ (-1) ()
      = some (⟨0, 0, 0⟩, ()) ∧
    Main5.ray_color (Vec3.unit_vector Rat.sqrt) (1 / 1000) 1000000000
        (fun g : Unit => (⟨0, 1, 0⟩, g))
        (fun _ => (⟨⟨0, 0, 0⟩, ⟨0, 0, 0⟩, 0, 0, 0, none⟩ : hit_record ℚ Unit))
        ⟨fun _ _ _ _ => none, fun _ _ b => (false, b)⟩ ⟨⟨0, 0, 0⟩, ⟨0, 0, -1⟩, 0⟩ (-1) ()
      = some (⟨0, 0, 0⟩, ()) :=
  ray_color_negative_depth (Vec3.unit_vector Rat.sqrt) (1 / 1000) 1000000000 _ _ _ _ _ _ _
    (-1) () (by decide)

/-- C9: against an empty world (a `HittableList` with no entries, whatever its root)
`ray_color` of `main1.cpp` returns exactly `background`, for every ray, every background and
every `depth ≥ 0`; no random number is drawn. -/
theorem Main1.ray_color_empty_world (unit_vector : Vec3 K → Vec3 K) (eps infinity : K)
    (random_double : K → K → G → K × G) (material : M → Material K M G)
    (rec0 : Int → hit_record K M) (background : Color K) (root : Option (BVHnode K M))
    (temp_rec : hit_record K M) (temp_box : AABB K) (r : Ray K) (depth : Int) (g : G)
    (hdepth : 0 ≤ depth) :
    Main1.ray_color unit_vector eps infinity random_double material rec0 background
        ((⟨[], root⟩ : HittableList K M).toHittable temp_rec temp_box) r depth g
      = some (background, g) := by
  rw [Main1.ray_color, if_neg (not_lt.mpr hdepth)]
  rfl

/-- C9 at a concrete input: `depth = 50`, a grey background. -/
theorem Main1.ray_color_empty_world_witness :
    Main1.ray_color (Vec3.unit_vector Rat.sqrt) (1 / 1000) 1000000000
        (fun lo _ (g : Unit) => (lo, g))
        (fun _ : Unit => ⟨fun _ _ _ _ _ => ⟨0, 0, 0⟩, fun _ _ g => (none, g), fun _ _ _ => 0⟩)
        (fun _ => ⟨⟨0, 0, 0⟩, ⟨0, 0, 0⟩, 0, 0, 0, none⟩) ⟨1 / 2, 1 / 2, 1 / 2⟩
        ((HittableList.empty : HittableList ℚ Unit).toHittable
          ⟨⟨0, 0, 0⟩, ⟨0, 0, 0⟩, 0, 0, 0, none⟩ ⟨⟨0, 0, 0⟩, ⟨0, 0, 0⟩⟩)
        ⟨⟨0, 0, 0⟩, ⟨0, 0, -1⟩, 0⟩ 50 ()
      = some (⟨1 / 2, 1 / 2, 1 / 2⟩, ()) :=
  Main1.ray_color_empty_world (Vec3.unit_vector Rat.sqrt) (1 / 1000) 1000000000 _ _ _ _ none
    _ _ _ 50 ()
    (by decide)

end IntegratorTheorems

/-! ## The path tracer of main1.cpp: estimator, guards, recursion bound -/

section PathTracerTheorems

variable {K M G : Type} [LinearOrderedField K]

/-- The body of `ray_color` (`main1.cpp`) after a hit on a surface whose material scatters:
the two guards and the final expression, with the locals named as in the source. -/
theorem Main1.ray_color_after_scatter (unit_vector : Vec3 K → Vec3 K) (eps infinity : K)
    (random_double : K → K → G → K × G) (material : M → Material K M G)
    (rec0 : Int → hit_record K M) (background : Color K) (world : Hittable K M) (r : Ray K)
    (depth : Int) (g g1 : G) (rec : hit_record K M) (m : M) (albedo : Color K)
    (scattered : Ray K) (pdf : K) (hdepth : 0 ≤ depth)
    (hhit : world.hit r eps infinity (rec0 depth) = some (true, rec))
    (hmat : rec.mat_ptr = some m)
    (hscatter : (material m).scatter r rec g = (some (albedo, scattered, pdf), g1)) :
    Main1.ray_color unit_vector eps infinity random_double material rec0 background world r
        depth g
      = if Vec3.dot (Main1.to_light unit_vector (Main1.on_light random_double g1).1 rec.p)
            rec.norm < 0 then
          some ((material m).emitted r rec rec.u rec.v rec.p, (Main1.on_light random_double g1).2)
        else if Main1.light_cosine unit_vector (Main1.on_light random_double g1).1 rec.p < eps then
          some ((material m).emitted r rec rec.u rec.v rec.p, (Main1.on_light random_double g1).2)
        else
          (Main1.ray_color unit_vector eps infinity random_double material rec0 background world
            ⟨rec.p, Main1.to_light unit_vector (Main1.on_light random_double g1).1 rec.p, r.time⟩
            (depth - 1) (Main1.on_light random_double g1).2).map
            (fun cg => (((material m).emitted r rec rec.u rec.v rec.p).add
              (((albedo.smul ((material m).scattering_pdf r rec
                  ⟨rec.p, Main1.to_light unit_vector (Main1.on_light random_double g1).1 rec.p,
                    r.time⟩)).mul cg.1).sdiv
                (Main1.pdf unit_vector (Main1.on_light random_double g1).1 rec.p)), cg.2)) := by
  rw [Main1.ray_color, if_neg (not_lt.mpr hdepth)]
  simp only [hhit, hmat, hscatter]
  simp only [Main1.to_light, Main1.on_light, Main1.light_cosine, Main1.pdf,
    Main1.distance_squared, Main1.light_area]
  split_ifs
  · rfl
  · rfl
  · cases Main1.ray_color unit_vector eps infinity random_double material rec0 background world
      _ (depth - 1) _ <;> rfl


/-- The number of `world.hit` queries of `ray_color` (`main1.cpp`) after a hit on a surface
whose material scatters: one when a guard fires, one more than the recursive call otherwise. -/
theorem Main1.ray_color_traced_after_scatter (unit_vector : Vec3 K → Vec3 K) (eps infinity : K)
    (random_double : K → K → G → K × G) (material : M → Material K M G)
    (rec0 : Int → hit_record K M) (background : Color K) (world : Hittable K M) (r : Ray K)
    (depth : Int) (g g1 : G) (rec : hit_record K M) (m : M) (albedo : Color K)
    (scattered : Ray K) (pdf : K) (hdepth : 0 ≤ depth)
    (hhit : world.hit r eps infinity (rec0 depth) = some (true, rec))
    (hmat : rec.mat_ptr = some m)
    (hscatter : (material m).scatter r rec g = (some (albedo, scattered, pdf), g1)) :
    (Main1.ray_color_traced unit_vector eps infinity random_double material rec0 background
        world r depth g).2
      = if Vec3.dot (Main1.to_light unit_vector (Main1.on_light random_double g1).1 rec.p)
            rec.norm < 0 then 1
        else if Main1.light_cosine unit_vector (Main1.on_light random_double g1).1 rec.p < eps
          then 1
        else
          (Main1.ray_color_traced unit_vector eps infinity random_double material rec0
            background world
            ⟨rec.p, Main1.to_light unit_vector (Main1.on_light random_double g1).1 rec.p, r.time⟩
            (depth - 1) (Main1.on_light random_double g1).2).2 + 1 := by
  rw [Main1.ray_color_traced, if_neg (not_lt.mpr hdepth)]
  simp only [hhit, hmat, hscatter]
  simp only [Main1.to_light, Main1.on_light, Main1.light_cosine]
  split_ifs <;> rfl

/-- The value of `light_area`. -/
theorem Main1.light_area_eq : (Main1.light_area : K) = 13650 := by
  unfold Main1.light_area
  norm_num

/-- The function `ray_color` of `main1.cpp` returns a color whenever every `world.hit` query is
defined and every surface hit has a material: by induction on the depth. -/
theorem Main1.ray_color_defined (unit_vector : Vec3 K → Vec3 K) (eps infinity : K)
    (random_double : K → K → G → K × G) (material : M → Material K M G)
    (rec0 : Int → hit_record K M) (background : Color K) (world : Hittable K M)
    (hworld : ∀ (r : Ray K) (q : hit_record K M), world.hit r eps infinity q ≠ none)
    (hsurface : ∀ (r : Ray K) (q rec : hit_record K M),
      world.hit r eps infinity q = some (true, rec) → rec.mat_ptr ≠ none) :
    ∀ (n : Nat) (depth : Int) (r : Ray K) (g : G), (depth + 1).toNat = n →
      ∃ c g', Main1.ray_color unit_vector eps infinity random_double material rec0 background
        world r depth g = some (c, g') := by
  intro n
  induction n with
  | zero =>
    intro depth r g hn
    have hd : depth < 0 := by omega
    rw [Main1.ray_color, if_pos hd]
    exact ⟨_, _, rfl⟩
  | succ k ih =>
    intro depth r g hn
    have hd : ¬ depth < 0 := by omega
    rw [Main1.ray_color, if_neg hd]
    rcases hhit : world.hit r eps infinity (rec0 depth) with _ | ⟨b, rec⟩
    · exact absurd hhit (hworld _ _)
    · cases b with
      | false => exact ⟨_, _, rfl⟩
      | true =>
        simp only
        rcases hmat : rec.mat_ptr with _ | m
        · exact absurd hmat (hsurface _ _ _ hhit)
        · simp only
          rcases (material m).scatter r rec g with ⟨_ | ⟨albedo, sc, pd⟩, g1⟩
          · exact ⟨_, _, rfl⟩
          · simp only
            split_ifs
            · exact ⟨_, _, rfl⟩
            · exact ⟨_, _, rfl⟩
            · obtain ⟨c, g2, h⟩ := ih (depth - 1)
                ⟨rec.p, unit_vector ((⟨(random_double 213 343 g1).1, 554,
                  (random_double 227 332 (random_double 213 343 g1).2).1⟩ : Point3 K).sub rec.p),
                  r.time⟩
                (random_double 227 332 (random_double 213 343 g1).2).2 (by omega)
              rw [h]
              exact ⟨_, _, rfl⟩

/-- C16: the light-sampling estimator.  For every call of `ray_color` (`main1.cpp`) with
`depth ≥ 0` in which the world is hit, the material scatters, `dot(to_light, rec.norm) ≥ 0`
and `|to_light.y| ≥ eps`, the result is
`emitted + albedo * scattering_pdf(r, rec, s) * ray_color(s, background, world, depth - 1) / pdf`
with `s = Ray(rec.p, to_light, r.time())` and `pdf = distance_squared / (|to_light.y| * 13650)`:
the call returns exactly that color whenever the recursive call returns a color, and is
undefined only if the recursive call is.  The recursive call, and with it the call, does
return a color whenever every `world.hit` query is defined and every surface hit has a
material.  The scattered ray and the pdf that the material's `scatter` returned occur nowhere
in the result. -/
theorem Main1.ray_color_estimator (unit_vector : Vec3 K → Vec3 K) (eps infinity : K)
    (random_double : K → K → G → K × G) (material : M → Material K M G)
    (rec0 : Int → hit_record K M) (background : Color K) (world : Hittable K M) (r : Ray K)
    (depth : Int) (g g1 : G) (rec : hit_record K M) (m : M) (albedo : Color K)
    (scattered : Ray K) (pdf : K) (hdepth : 0 ≤ depth)
    (hhit : world.hit r eps infinity (rec0 depth) = some (true, rec))
    (hmat : rec.mat_ptr = some m)
    (hscatter : (material m).scatter r rec g = (some (albedo, scattered, pdf), g1))
    (hdot : 0 ≤ Vec3.dot (Main1.to_light unit_vector (Main1.on_light random_double g1).1 rec.p)
      rec.norm)
    (hcos : eps ≤ |(Main1.to_light unit_vector (Main1.on_light random_double g1).1 rec.p).y|) :
    Main1.ray_color unit_vector eps infinity random_double material rec0 background world r
        depth g
      = (Main1.ray_color unit_vector eps infinity random_double material rec0 background world
          ⟨rec.p, Main1.to_light unit_vector (Main1.on_light random_double g1).1 rec.p, r.time⟩
          (depth - 1) (Main1.on_light random_double g1).2).map
          (fun cg => (((material m).emitted r rec rec.u rec.v rec.p).add
            (((albedo.smul ((material m).scattering_pdf r rec
                ⟨rec.p, Main1.to_light unit_vector (Main1.on_light random_double g1).1 rec.p,
                  r.time⟩)).mul cg.1).sdiv
              (Main1.pdf unit_vector (Main1.on_light random_double g1).1 rec.p)), cg.2)) ∧
    Main1.pdf unit_vector (Main1.on_light random_double g1).1 rec.p
      = Main1.distance_squared (Main1.on_light random_double g1).1 rec.p
        / (|(Main1.to_light unit_vector (Main1.on_light random_double g1).1 rec.p).y| * 13650) ∧
    ((∀ (r' : Ray K) (q : hit_record K M), world.hit r' eps infinity q ≠ none) →
      (∀ (r' : Ray K) (q rec' : hit_record K M),
        world.hit r' eps infinity q = some (true, rec') → rec'.mat_ptr ≠ none) →
      ∃ (c : Color K) (g2 : G),
        Main1.ray_color unit_vector eps infinity random_double material rec0 background world
          ⟨rec.p, Main1.to_light unit_vector (Main1.on_light random_double g1).1 rec.p, r.time⟩
          (depth - 1) (Main1.on_light random_double g1).2 = some (c, g2) ∧
        Main1.ray_color unit_vector eps infinity random_double material rec0 background world r
            depth g
          = some (((material m).emitted r rec rec.u rec.v rec.p).add
              (((albedo.smul ((material m).scattering_pdf r rec
                  ⟨rec.p, Main1.to_light unit_vector (Main1.on_light random_double g1).1 rec.p,
                    r.time⟩)).mul c).sdiv
                (((Main1.on_light random_double g1).1.sub rec.p).length_sqr
                  / (|(Main1.to_light unit_vector (Main1.on_light random_double g1).1
                    rec.p).y| * 13650))), g2)) := by
  have hcos' : ¬ Main1.light_cosine unit_vector (Main1.on_light random_double g1).1 rec.p
      < eps := not_lt.mpr hcos
  have hmain := Main1.ray_color_after_scatter unit_vector eps infinity random_double material
    rec0 background world r depth g g1 rec m albedo scattered pdf hdepth hhit hmat hscatter
  rw [if_neg (not_lt.mpr hdot), if_neg hcos'] at hmain
  have hpdf : Main1.pdf unit_vector (Main1.on_light random_double g1).1 rec.p
      = Main1.distance_squared (Main1.on_light random_double g1).1 rec.p
        / (|(Main1.to_light unit_vector (Main1.on_light random_double g1).1 rec.p).y| * 13650) := by
    rw [Main1.pdf, Main1.light_cosine, Main1.light_area_eq]
  refine ⟨hmain, hpdf, ?_⟩
  intro hworld hsurface
  obtain ⟨c, g2, hc⟩ := Main1.ray_color_defined unit_vector eps infinity random_double material
    rec0 background world hworld hsurface _ (depth - 1)
    ⟨rec.p, Main1.to_light unit_vector (Main1.on_light random_double g1).1 rec.p, r.time⟩
    (Main1.on_light random_double g1).2 rfl
  refine ⟨c, g2, hc, ?_⟩
  rw [hmain, hc, hpdf]
  rfl

/-- C17: the emitted-only exits.  For every call of `ray_color` (`main1.cpp`) with
`depth ≥ 0` in which the world is hit (on a surface with a material), the result is exactly
the material's emitted radiance at the hit, and the call performs its one `world.hit` query
and no recursive call, whenever the material reports no scatter, or
`dot(to_light, rec.norm) < 0`, or `|to_light.y| < eps`. -/
theorem Main1.ray_color_emitted_only (unit_vector : Vec3 K → Vec3 K) (eps infinity : K)
    (random_double : K → K → G → K × G) (material : M → Material K M G)
    (rec0 : Int → hit_record K M) (background : Color K) (world : Hittable K M) (r : Ray K)
    (depth : Int) (g g1 : G) (rec : hit_record K M) (m : M) (hdepth : 0 ≤ depth)
    (hhit : world.hit r eps infinity (rec0 depth) = some (true, rec))
    (hmat : rec.mat_ptr = some m) :
    ((material m).scatter r rec g = (none, g1) →
      Main1.ray_color unit_vector eps infinity random_double material rec0 background world r
          depth g = some ((material m).emitted r rec rec.u rec.v rec.p, g1) ∧
      (Main1.ray_color_traced unit_vector eps infinity random_double material rec0 background
          world r depth g).2 = 1) ∧
    (∀ (albedo : Color K) (scattered : Ray K) (pdf : K),
      (material m).scatter r rec g = (some (albedo, scattered, pdf), g1) →
      (Vec3.dot (Main1.to_light unit_vector (Main1.on_light random_double g1).1 rec.p) rec.norm
          < 0 ∨
        |(Main1.to_light unit_vector (Main1.on_light random_double g1).1 rec.p).y| < eps) →
      Main1.ray_color unit_vector eps infinity random_double material rec0 background world r
          depth g
        = some ((material m).emitted r rec rec.u rec.v rec.p,
            (Main1.on_light random_double g1).2) ∧
      (Main1.ray_color_traced unit_vector eps infinity random_double material rec0 background
          world r depth g).2 = 1) := by
  constructor
  · intro hscatter
    constructor
    · rw [Main1.ray_color, if_neg (not_lt.mpr hdepth)]
      simp only [hhit, hmat, hscatter]
    · rw [Main1.ray_color_traced, if_neg (not_lt.mpr hdepth)]
      simp only [hhit, hmat, hscatter]
  · intro albedo scattered pdf hscatter hguard
    rw [Main1.ray_color_after_scatter unit_vector eps infinity random_double material rec0
      background world r depth g g1 rec m albedo scattered pdf hdepth hhit hmat hscatter,
      Main1.ray_color_traced_after_scatter unit_vector eps infinity random_double material rec0
      background world r depth g g1 rec m albedo scattered pdf hdepth hhit hmat hscatter]
    rcases hguard with h | h
    · simp only [h, if_true, and_self]
    · have h' : Main1.light_cosine unit_vector (Main1.on_light random_double g1).1 rec.p < eps := h
      simp only [h', if_true, ite_self, and_self]

/-- C13 as amended.  For every `eps > 0` and every call of `ray_color` (`main1.cpp`) that
reaches the final division (the world is hit, the material scatters, neither guard fires)
with a sampled light point different from the hit point: `light_cosine ≥ eps`,
`light_area = 13650`, and the divisor `pdf = distance_squared / (light_cosine * light_area)`
of the final expression is strictly positive, in particular non-zero. -/
theorem Main1.pdf_positive (unit_vector : Vec3 K → Vec3 K) (eps infinity : K)
    (random_double : K → K → G → K × G) (material : M → Material K M G)
    (rec0 : Int → hit_record K M) (background : Color K) (world : Hittable K M) (r : Ray K)
    (depth : Int) (g g1 : G) (rec : hit_record K M) (m : M) (albedo : Color K)
    (scattered : Ray K) (pdf : K) (heps : 0 < eps) (hdepth : 0 ≤ depth)
    (hhit : world.hit r eps infinity (rec0 depth) = some (true, rec))
    (hmat : rec.mat_ptr = some m)
    (hscatter : (material m).scatter r rec g = (some (albedo, scattered, pdf), g1))
    (hdot : ¬ Vec3.dot (Main1.to_light unit_vector (Main1.on_light random_double g1).1 rec.p)
      rec.norm < 0)
    (hcos : ¬ Main1.light_cosine unit_vector (Main1.on_light random_double g1).1 rec.p < eps)
    (hne : (Main1.on_light random_double g1).1 ≠ rec.p) :
    eps ≤ Main1.light_cosine unit_vector (Main1.on_light random_double g1).1 rec.p ∧
    (Main1.light_area : K) = 13650 ∧
    0 < Main1.pdf unit_vector (Main1.on_light random_double g1).1 rec.p ∧
    Main1.pdf unit_vector (Main1.on_light random_double g1).1 rec.p ≠ 0 ∧
    Main1.ray_color unit_vector eps infinity random_double material rec0 background world r
        depth g
      = (Main1.ray_color unit_vector eps infinity random_double material rec0 background world
          ⟨rec.p, Main1.to_light unit_vector (Main1.on_light random_double g1).1 rec.p, r.time⟩
          (depth - 1) (Main1.on_light random_double g1).2).map
          (fun cg => (((material m).emitted r rec rec.u rec.v rec.p).add
            (((albedo.smul ((material m).scattering_pdf r rec
                ⟨rec.p, Main1.to_light unit_vector (Main1.on_light random_double g1).1 rec.p,
                  r.time⟩)).mul cg.1).sdiv
              (Main1.pdf unit_vector (Main1.on_light random_double g1).1 rec.p)), cg.2)) := by
  have hc : eps ≤ Main1.light_cosine unit_vector (Main1.on_light random_double g1).1 rec.p :=
    not_lt.mp hcos
  have hsub : (Main1.on_light random_double g1).1.sub rec.p ≠ Vec3.zero := by
    intro h
    apply hne
    simp only [Vec3.sub, Vec3.zero, Vec3.mk.injEq] at h
    obtain ⟨hx, hy, hz⟩ := h
    cases hp : rec.p
    cases ho : (Main1.on_light random_double g1).1
    rw [hp, ho] at hx hy hz
    simp only at hx hy hz
    simp only [Vec3.mk.injEq]
    exact ⟨sub_eq_zero.mp hx, sub_eq_zero.mp hy, sub_eq_zero.mp hz⟩
  have hd : 0 < Main1.distance_squared (Main1.on_light random_double g1).1 rec.p :=
    Vec3.length_sqr_pos hsub
  have ha : (0 : K) < Main1.light_area := by rw [Main1.light_area_eq]; norm_num
  have hpos : 0 < Main1.pdf unit_vector (Main1.on_light random_double g1).1 rec.p :=
    div_pos hd (mul_pos (lt_of_lt_of_le heps hc) ha)
  refine ⟨hc, Main1.light_area_eq, hpos, hpos.ne', ?_⟩
  rw [Main1.ray_color_after_scatter unit_vector eps infinity random_double material rec0
    background world r depth g g1 rec m albedo scattered pdf hdepth hhit hmat hscatter,
    if_neg hdot, if_neg hcos]


/-- C13, the claim fails when the sampled light point is the hit point.  The hit point is
`(213, 554, 227)`, both draws return their lower bound, so `on_light` is that same point:
`to_light` is the zero vector, `distance_squared = 0`, and `unit_vector` is applied to the zero
vector (`0 / 0` in the source, a NaN for which both guards compare false; here a version of
`unit_vector` whose value there, `(0, 1, 0)`, lets both guards pass as well).  The call
reaches the final expression and divides by `pdf = 0`. -/
theorem Main1.pdf_positive_counterexample :
    Vec3.Normalizes Rat.sqrt (unit_vector_with ⟨0, 1, 0⟩) ∧
    (Main1.on_light lowest_draw ()).1 = (⟨213, 554, 227⟩ : Point3 ℚ) ∧
    ¬ Vec3.dot (Main1.to_light (unit_vector_with ⟨0, 1, 0⟩) (Main1.on_light lowest_draw ()).1
        ⟨213, 554, 227⟩) ⟨0, 1, 0⟩ < 0 ∧
    ¬ Main1.light_cosine (unit_vector_with ⟨0, 1, 0⟩) (Main1.on_light lowest_draw ()).1
        ⟨213, 554, 227⟩ < 1 / 1000 ∧
    Main1.pdf (unit_vector_with ⟨0, 1, 0⟩) (Main1.on_light lowest_draw ()).1
        ⟨213, 554, 227⟩ = 0 ∧
    Main1.ray_color (unit_vector_with ⟨0, 1, 0⟩) (1 / 1000) 1000000000 lowest_draw
        plain_material (fun _ => zero_rec) ⟨0, 0, 0⟩ (point_world ⟨213, 554, 227⟩ ⟨0, 1, 0⟩)
        down_z 0 ()
      = (Main1.ray_color (unit_vector_with ⟨0, 1, 0⟩) (1 / 1000) 1000000000 lowest_draw
          plain_material (fun _ => zero_rec) ⟨0, 0, 0⟩ (point_world ⟨213, 554, 227⟩ ⟨0, 1, 0⟩)
          ⟨⟨213, 554, 227⟩, ⟨0, 1, 0⟩, 0⟩ (0 - 1) ()).map
          (fun cg => ((⟨0, 0, 0⟩ : Color ℚ).add
            (((Vec3.smul 1 ⟨1, 1, 1⟩).mul cg.1).sdiv 0), cg.2)) := by
  have hp : Main1.pdf (unit_vector_with ⟨0, 1, 0⟩) (Main1.on_light lowest_draw ()).1
      ⟨213, 554, 227⟩ = 0 := by decide!
  have hd : ¬ Vec3.dot (Main1.to_light (unit_vector_with ⟨0, 1, 0⟩)
      (Main1.on_light lowest_draw ()).1 ⟨213, 554, 227⟩) ⟨0, 1, 0⟩ < 0 := by decide!
  have hc : ¬ Main1.light_cosine (unit_vector_with ⟨0, 1, 0⟩) (Main1.on_light lowest_draw ()).1
      ⟨213, 554, 227⟩ < 1 / 1000 := by decide!
  have ht : Main1.to_light (unit_vector_with ⟨0, 1, 0⟩) (Main1.on_light lowest_draw ()).1
      ⟨213, 554, 227⟩ = ⟨0, 1, 0⟩ := by decide!
  refine ⟨?_, by decide!, hd, hc, hp, ?_⟩
  · intro v hv
    simp only [unit_vector_with, if_neg hv]
    rfl
  · rw [Main1.ray_color_after_scatter (unit_vector_with ⟨0, 1, 0⟩) (1 / 1000) 1000000000
      lowest_draw plain_material (fun _ => zero_rec) ⟨0, 0, 0⟩
      (point_world ⟨213, 554, 227⟩ ⟨0, 1, 0⟩) down_z 0 () ()
      { zero_rec with p := ⟨213, 554, 227⟩, norm := ⟨0, 1, 0⟩, t := 1, mat_ptr := some () } ()
      ⟨1, 1, 1⟩ down_z 1 le_rfl rfl rfl rfl]
    rw [if_neg hd, if_neg hc, hp, ht]
    rfl

/-- C13 as amended, at a concrete input: the hit point `(213, 553, 227)` straight below the
sampled light point `(213, 554, 227)`. -/
theorem Main1.pdf_positive_witness :
    (1 / 1000 : ℚ) ≤ Main1.light_cosine (unit_vector_with ⟨0, 1, 0⟩)
      (Main1.on_light lowest_draw ()).1 ⟨213, 553, 227⟩ ∧
    (Main1.light_area : ℚ) = 13650 ∧
    0 < Main1.pdf (unit_vector_with ⟨0, 1, 0⟩) (Main1.on_light lowest_draw ()).1
      ⟨213, 553, 227⟩ :=
  have h := Main1.pdf_positive (unit_vector_with ⟨0, 1, 0⟩) (1 / 1000) 1000000000
    lowest_draw plain_material (fun _ => zero_rec) ⟨0, 0, 0⟩
    (point_world ⟨213, 553, 227⟩ ⟨0, 1, 0⟩) down_z 0 () ()
    { zero_rec with p := ⟨213, 553, 227⟩, norm := ⟨0, 1, 0⟩, t := 1, mat_ptr := some () } ()
    ⟨1, 1, 1⟩ down_z 1 (by norm_num) le_rfl rfl rfl rfl (by decide!) (by decide!) (by decide!)
  ⟨h.1, h.2.1, h.2.2.1⟩

/-- C16 at a concrete input: the ray from the origin hits at `(213, 553, 227)`, straight
below the sampled light point `(213, 554, 227)`, on a surface with albedo `(1, 1, 1)`,
`scattering_pdf = 1` and no emission; the ray toward the light misses and returns the
background `(1, 2, 3) / 13650`.  With `distance_squared = 1` and `|to_light.y| = 1` the divisor
is `pdf = 1 / 13650`, and the call with `depth = 1` returns the color `(1, 2, 3)`. -/
theorem Main1.ray_color_estimator_witness :
    Main1.ray_color (unit_vector_with ⟨0, 1, 0⟩) (1 / 1000) 1000000000 lowest_draw
        plain_material (fun _ => zero_rec) ⟨1 / 13650, 2 / 13650, 3 / 13650⟩
        (origin_world ⟨213, 553, 227⟩ ⟨0, 1, 0⟩) down_z 1 ()
      = some (⟨1, 2, 3⟩, ()) := by
  have h := (Main1.ray_color_estimator (unit_vector_with ⟨0, 1, 0⟩) (1 / 1000) 1000000000
    lowest_draw plain_material (fun _ => zero_rec) ⟨1 / 13650, 2 / 13650, 3 / 13650⟩
    (origin_world ⟨213, 553, 227⟩ ⟨0, 1, 0⟩) down_z 1 () ()
    { zero_rec with p := ⟨213, 553, 227⟩, norm := ⟨0, 1, 0⟩, t := 1, mat_ptr := some () } ()
    ⟨1, 1, 1⟩ down_z 1 (by decide) rfl rfl rfl (by decide!) (by decide!)).1
  have ht : Main1.to_light (unit_vector_with ⟨0, 1, 0⟩) (Main1.on_light lowest_draw ()).1
      ⟨213, 553, 227⟩ = ⟨0, 1, 0⟩ := by decide!
  have hp : Main1.pdf (unit_vector_with ⟨0, 1, 0⟩) (Main1.on_light lowest_draw ()).1
      ⟨213, 553, 227⟩ = 1 / 13650 := by decide!
  have hbelow : Main1.ray_color (unit_vector_with ⟨0, 1, 0⟩) (1 / 1000) 1000000000 lowest_draw
      plain_material (fun _ => zero_rec) ⟨1 / 13650, 2 / 13650, 3 / 13650⟩
      (origin_world ⟨213, 553, 227⟩ ⟨0, 1, 0⟩) ⟨⟨213, 553, 227⟩, ⟨0, 1, 0⟩, down_z.time⟩
      (1 - 1) (Main1.on_light lowest_draw ()).2
      = some (⟨1 / 13650, 2 / 13650, 3 / 13650⟩, ()) := by
    rw [Main1.ray_color, if_neg (by decide)]
    have hmiss : (origin_world ⟨213, 553, 227⟩ ⟨0, 1, 0⟩).hit
        ⟨⟨213, 553, 227⟩, ⟨0, 1, 0⟩, down_z.time⟩ (1 / 1000) 1000000000 zero_rec
        = some (false, zero_rec) := by decide!
    simp only [hmiss]
  rw [h]
  simp only [ht, hp]
  rw [hbelow]
  decide!

/-- C17 at a concrete input: a hit point above the light plane, so that `to_light` points
against the normal `(0, 1, 0)`. -/
theorem Main1.ray_color_emitted_only_witness :
    Main1.ray_color (unit_vector_with ⟨0, 1, 0⟩) (1 / 1000) 1000000000 lowest_draw
        plain_material (fun _ => zero_rec) ⟨1, 1, 1⟩ (point_world ⟨213, 555, 227⟩ ⟨0, 1, 0⟩)
        down_z 5 ()
      = some (⟨0, 0, 0⟩, ()) ∧
    (Main1.ray_color_traced (unit_vector_with ⟨0, 1, 0⟩) (1 / 1000) 1000000000 lowest_draw
        plain_material (fun _ => zero_rec) ⟨1, 1, 1⟩ (point_world ⟨213, 555, 227⟩ ⟨0, 1, 0⟩)
        down_z 5 ()).2 = 1 :=
  (Main1.ray_color_emitted_only (unit_vector_with ⟨0, 1, 0⟩) (1 / 1000) 1000000000
    lowest_draw plain_material (fun _ => zero_rec) ⟨1, 1, 1⟩
    (point_world ⟨213, 555, 227⟩ ⟨0, 1, 0⟩) down_z 5 () ()
    { zero_rec with p := ⟨213, 555, 227⟩, norm := ⟨0, 1, 0⟩, t := 1, mat_ptr := some () } ()
    (by decide) rfl rfl).2 ⟨1, 1, 1⟩ down_z 1 rfl (Or.inl (by decide!))


/-- The traced `ray_color` of `main1.cpp` returns the result of `ray_color` and performs at
most `depth + 1` queries (none for a negative `depth`). -/
theorem Main1.traced_path_spec (unit_vector : Vec3 K → Vec3 K) (eps infinity : K)
    (random_double : K → K → G → K × G) (material : M → Material K M G)
    (rec0 : Int → hit_record K M) (background : Color K) (world : Hittable K M) :
    ∀ (n : Nat) (depth : Int) (r : Ray K) (g : G), (depth + 1).toNat = n →
      (Main1.ray_color_traced unit_vector eps infinity random_double material rec0 background
          world r depth g).1
        = Main1.ray_color unit_vector eps infinity random_double material rec0 background world
            r depth g ∧
      (Main1.ray_color_traced unit_vector eps infinity random_double material rec0 background
          world r depth g).2 ≤ n := by
  intro n
  induction n with
  | zero =>
    intro depth r g hn
    have hd : depth < 0 := by omega
    rw [Main1.ray_color_traced, Main1.ray_color, if_pos hd, if_pos hd]
    exact ⟨rfl, le_rfl⟩
  | succ k ih =>
    intro depth r g hn
    have hd : ¬ depth < 0 := by omega
    rw [Main1.ray_color_traced, Main1.ray_color, if_neg hd, if_neg hd]
    rcases world.hit r eps infinity (rec0 depth) with _ | ⟨b, rec⟩
    · exact ⟨rfl, by simp⟩
    · cases b with
      | false => exact ⟨rfl, by simp⟩
      | true =>
        simp only
        rcases rec.mat_ptr with _ | m
        · exact ⟨rfl, by simp⟩
        · simp only
          rcases (material m).scatter r rec g with ⟨_ | ⟨albedo, sc, pd⟩, g1⟩
          · exact ⟨rfl, by simp⟩
          · simp only
            split_ifs
            · exact ⟨rfl, by simp⟩
            · exact ⟨rfl, by simp⟩
            · obtain ⟨ih1, ih2⟩ := ih (depth - 1)
                ⟨rec.p, unit_vector ((⟨(random_double 213 343 g1).1, 554,
                  (random_double 227 332 (random_double 213 343 g1).2).1⟩ : Point3 K).sub rec.p),
                  r.time⟩
                (random_double 227 332 (random_double 213 343 g1).2).2 (by omega)
              rw [ih1]
              exact ⟨rfl, by omega⟩

/-- The traced `ray_color` of `main5.cpp` returns the result of `ray_color` and performs at
most `depth + 1` queries (none for a negative `depth`). -/
theorem Main5.traced_diffuse_spec (unit_vector : Vec3 K → Vec3 K) (eps infinity : K)
    (random_unit_vector : G → Vec3 K × G) (rec0 : Int → hit_record K M)
    (world : Hittable K M) :
    ∀ (n : Nat) (depth : Int) (r : Ray K) (g : G), (depth + 1).toNat = n →
      (Main5.ray_color_traced unit_vector eps infinity random_unit_vector rec0 world r depth
          g).1
        = Main5.ray_color unit_vector eps infinity random_unit_vector rec0 world r depth g ∧
      (Main5.ray_color_traced unit_vector eps infinity random_unit_vector rec0 world r depth
          g).2 ≤ n := by
  intro n
  induction n with
  | zero =>
    intro depth r g hn
    have hd : depth < 0 := by omega
    rw [Main5.ray_color_traced, Main5.ray_color, if_pos hd, if_pos hd]
    exact ⟨rfl, le_rfl⟩
  | succ k ih =>
    intro depth r g hn
    have hd : ¬ depth < 0 := by omega
    rw [Main5.ray_color_traced, Main5.ray_color, if_neg hd, if_neg hd]
    rcases world.hit r eps infinity (rec0 depth) with _ | ⟨b, rec⟩
    · exact ⟨rfl, by simp⟩
    · cases b with
      | false => exact ⟨rfl, by simp⟩
      | true =>
        simp only
        obtain ⟨ih1, ih2⟩ := ih (depth - 1)
          ⟨rec.p, ((rec.p.add rec.norm).add (random_unit_vector g).1).sub rec.p, 0⟩
          (random_unit_vector g).2 (by omega)
        rw [ih1]
        exact ⟨rfl, by omega⟩

/-- C15: the recursion of `ray_color` is bounded by `depth`, in `main1.cpp` and in
`main5.cpp` alike.  Both functions are total: for every world, ray, integer `depth` and every
behaviour of the hit queries, the materials and the random source, the evaluation ends with a
result (a color, or the undefined outcome of a query), every recursive call being made
with `depth - 1`.  The traced versions compute that same result and count the `world.hit`
queries: at most `depth + 1` when `depth ≥ 0`, none when `depth < 0`. -/
theorem ray_color_bounded (unit_vector : Vec3 K → Vec3 K) (eps infinity : K)
    (random_double : K → K → G → K × G) (random_unit_vector : G → Vec3 K × G)
    (material : M → Material K M G) (rec0 : Int → hit_record K M) (background : Color K)
    (world : Hittable K M) (r : Ray K) (depth : Int) (g : G) :
    (Main1.ray_color_traced unit_vector eps infinity random_double material rec0 background
        world r depth g).1
      = Main1.ray_color unit_vector eps infinity random_double material rec0 background world r
          depth g ∧
    (Main5.ray_color_traced unit_vector eps infinity random_unit_vector rec0 world r depth g).1
      = Main5.ray_color unit_vector eps infinity random_unit_vector rec0 world r depth g ∧
    (0 ≤ depth →
      ((Main1.ray_color_traced unit_vector eps infinity random_double material rec0 background
          world r depth g).2 : Int) ≤ depth + 1 ∧
      ((Main5.ray_color_traced unit_vector eps infinity random_unit_vector rec0 world r depth
          g).2 : Int) ≤ depth + 1) ∧
    (depth < 0 →
      (Main1.ray_color_traced unit_vector eps infinity random_double material rec0 background
          world r depth g).2 = 0 ∧
      (Main5.ray_color_traced unit_vector eps infinity random_unit_vector rec0 world r depth
          g).2 = 0) := by
  obtain ⟨h1, h1'⟩ := Main1.traced_path_spec unit_vector eps infinity random_double
    material rec0 background world _ depth r g rfl
  obtain ⟨h5, h5'⟩ := Main5.traced_diffuse_spec unit_vector eps infinity random_unit_vector
    rec0 world _ depth r g rfl
  refine ⟨h1, h5, ?_, ?_⟩
  · intro hd
    constructor <;> omega
  · intro hd
    constructor <;> omega

/-- C15, evaluated: in a world where every ray hits and every guard is passed the bound is
attained, `depth + 1 = 4` queries for `depth = 3`. -/
theorem ray_color_bounded_eval :
    (Main1.ray_color_traced (unit_vector_with ⟨0, 1, 0⟩) (1 / 1000) 1000000000 lowest_draw
        plain_material (fun _ => zero_rec) ⟨0, 0, 0⟩ (point_world ⟨213, 553, 227⟩ ⟨0, 1, 0⟩)
        down_z 3 ()).2 = 4 := by
  have step : ∀ (r : Ray ℚ) (depth : Int), 0 ≤ depth →
      (Main1.ray_color_traced (unit_vector_with ⟨0, 1, 0⟩) (1 / 1000) 1000000000 lowest_draw
        plain_material (fun _ => zero_rec) ⟨0, 0, 0⟩ (point_world ⟨213, 553, 227⟩ ⟨0, 1, 0⟩)
        r depth ()).2
      = (Main1.ray_color_traced (unit_vector_with ⟨0, 1, 0⟩) (1 / 1000) 1000000000 lowest_draw
        plain_material (fun _ => zero_rec) ⟨0, 0, 0⟩ (point_world ⟨213, 553, 227⟩ ⟨0, 1, 0⟩)
        ⟨⟨213, 553, 227⟩, Main1.to_light (unit_vector_with ⟨0, 1, 0⟩)
          (Main1.on_light lowest_draw ()).1 ⟨213, 553, 227⟩, r.time⟩ (depth - 1) ()).2 + 1 := by
    intro r depth hd
    rw [Main1.ray_color_traced_after_scatter (unit_vector_with ⟨0, 1, 0⟩) (1 / 1000) 1000000000
      lowest_draw plain_material (fun _ => zero_rec) ⟨0, 0, 0⟩
      (point_world ⟨213, 553, 227⟩ ⟨0, 1, 0⟩) r depth () ()
      { zero_rec with p := ⟨213, 553, 227⟩, norm := ⟨0, 1, 0⟩, t := 1, mat_ptr := some () } ()
      ⟨1, 1, 1⟩ r 1 hd rfl rfl rfl]
    rw [if_neg (by decide!), if_neg (by decide!)]
  rw [step _ 3 (by decide), step _ (3 - 1) (by decide), step _ (3 - 1 - 1) (by decide),
    step _ (3 - 1 - 1 - 1) (by decide), Main1.ray_color_traced, if_pos (by decide)]

end PathTracerTheorems

/-! ## The diffuse integrator of main5.cpp: range of the returned color -/

section DiffuseTheorems

variable {K M G : Type} [LinearOrderedField K]

/-- C19, evaluated in the world of `main5.cpp` over the rationals: with the draw
`random_unit_vector() = (0, 0, 1)` the scattered ray has direction `(0, 0, 2)` and misses; the
sky gradient at `t = 1/2` is `(0.75, 0.85, 1)` and the call with `depth = 1` returns half of
it. -/
theorem Main5.ray_color_range_eval :
    Main5.ray_color (unit_vector_with ⟨0, 0, 0⟩) (1 / 1000) 1000000000
        (fun g : Unit => ((⟨0, 0, 1⟩ : Vec3 ℚ), g)) (fun _ => zero_rec) main5_world down_z 1 ()
      = some (⟨3 / 8, 17 / 40, 1 / 2⟩, ()) := by
  have h1 : main5_world.hit down_z (1 / 1000) 1000000000 zero_rec
      = some (true, { zero_rec with p := ⟨0, 0, -1 / 2⟩, norm := ⟨0, 0, 1⟩, t := 1 / 2 }) := by
    decide!
  have h3 : (((⟨0, 0, -1 / 2⟩ : Point3 ℚ).add ⟨0, 0, 1⟩).add ⟨0, 0, 1⟩).sub ⟨0, 0, -1 / 2⟩
      = ⟨0, 0, 2⟩ := by decide!
  have h2 : main5_world.hit ⟨⟨0, 0, -1 / 2⟩, ⟨0, 0, 2⟩, 0⟩ (1 / 1000) 1000000000 zero_rec
      = some (false, zero_rec) := by
    decide!
  rw [Main5.ray_color, if_neg (by decide)]
  simp only [h1]
  rw [h3, Main5.ray_color, if_neg (by decide)]
  simp only [h2]
  decide!

end DiffuseTheorems


/-! ## Rounded arithmetic: `Sphere::hit` and `ONB::build_from_w` in binary64 -/

section RoundingTheorems

variable {K M : Type} [LinearOrderedField K]

/-- Sample values of the binary64 arithmetic: `1/3`, `1/10` and `7/25` round to the doubles
nearest to them, `2^54 - 1` is a tie and rounds to the even neighbour `2^54`, `1 + 2^-53` is a
tie and rounds to 1, and `sqrt 2` is the double `6369051672525773 / 2^52`, which lies within
half a unit in the last place (`2^-53`) of the square root of 2. -/
theorem binary64_eval :
    round53 (1 / 3) = 6004799503160661 / 18014398509481984 ∧
    round53 (1 / 10) = 3602879701896397 / 36028797018963968 ∧
    round53 (7 / 25) = 1261007895663739 / 4503599627370496 ∧
    round53 18014398509481983 = 18014398509481984 ∧
    round53 (9007199254740993 / 9007199254740992) = 1 ∧
    binary64.sqrt 625 = 25 ∧
    binary64.sqrt 2 = 6369051672525773 / 4503599627370496 ∧
    ((6369051672525773 / 4503599627370496 - 1 / 9007199254740992 : ℚ)
        * (6369051672525773 / 4503599627370496 - 1 / 9007199254740992) < 2 ∧
      (2 : ℚ) < (6369051672525773 / 4503599627370496 + 1 / 9007199254740992)
        * (6369051672525773 / 4503599627370496 + 1 / 9007199254740992)) := by
  refine ⟨by decide!, by decide!, by decide!, by decide!, by decide!, by decide!, by decide!,
    by norm_num, by norm_num⟩

/-- With exact arithmetic the rounded `Sphere::hit` is the function `Sphere.hit`. -/
theorem Sphere.hit_fl_exact (sqrt : K → K) (s : Sphere K) (r : Ray K) (tmin tmax : K)
    (rec : hit_record K M) :
    s.hit_fl (Arith.exact sqrt) r tmin tmax rec = s.hit sqrt r tmin tmax rec := rfl

end RoundingTheorems

end Raytracer
